import Mathlib

/-!
A shallow embedding of the update-move tree-conflict resolver of
`wc_db_update_move.c` (libsvn_wc).  Relative paths are lists of path
components, the NODES table is an association list keyed by
(relpath, op-depth), and the external collaborators (disk, merger,
property merger, lock table) are oracles collected in an `Env` record.
All functions are translated from the C source; SQL statements and
wc_db helpers whose bodies are not part of the analysed sources are
modelled from the specification text and carry a note in their doc
comment.
-/

namespace UpdateMove

/-- A working-copy relative path, as its list of path components
(`svn_relpath` semantics: the empty list is the wcroot). -/
abbrev RelPath := List String

/-- `relpath_depth`: the number of path components.  Returned as `Int`
because the C code compares op-depths with -1 sentinels. -/
def relpathDepth (p : RelPath) : Int := (p.length : Int)

/-- `svn_relpath_dirname`: drop the last component (the dirname of the
root is the root). -/
def relpathDirname (p : RelPath) : RelPath := p.dropLast

/-- `svn_relpath_skip_ancestor`: if `anc` is an ancestor of (or equal
to) `p`, return the remainder of `p`, otherwise `none`. -/
def skipAncestor : RelPath → RelPath → Option RelPath
  | [], p => some p
  | _ :: _, [] => none
  | a :: as, b :: bs => if a = b then skipAncestor as bs else none

/-- Boolean ancestor-or-self test, via `skipAncestor`. -/
def isAncestor (anc p : RelPath) : Bool := (skipAncestor anc p).isSome

/-- `strcmp`-style strict ordering on character lists (by code
point). -/
def strLtAux : List Char → List Char → Bool
  | [], [] => false
  | [], _ :: _ => true
  | _ :: _, [] => false
  | a :: as, b :: bs =>
    if a.toNat < b.toNat then true
    else if b.toNat < a.toNat then false
    else strLtAux as bs

/-- `strcmp(a, b) < 0`. -/
def strLtB (a b : String) : Bool := strLtAux a.data b.data

/-- Insertion of a string into a sorted list (ascending, `strcmp`). -/
def insertSorted (x : String) : List String → List String
  | [] => [x]
  | y :: ys => if strLtB y x then y :: insertSorted x ys else x :: y :: ys

/-- Lexicographic sort of base names, as `svn_sort__hash` with
`svn_sort_compare_items_lexically` does for child lists. -/
def sortStrings : List String → List String
  | [] => []
  | x :: xs => insertSorted x (sortStrings xs)

/-- Lexicographic `≤` on relative paths (component-wise). -/
def pathLeB : RelPath → RelPath → Bool
  | [], _ => true
  | _ :: _, [] => false
  | a :: as, b :: bs => if a = b then pathLeB as bs else strLtB a b

/-- Insertion sort with an arbitrary boolean `≤`. -/
def insertSortedBy (le : α → α → Bool) (x : α) : List α → List α
  | [] => [x]
  | y :: ys => if le x y then x :: y :: ys else y :: insertSortedBy le x ys

/-- Sort with an arbitrary boolean `≤`. -/
def sortBy (le : α → α → Bool) : List α → List α
  | [] => []
  | x :: xs => insertSortedBy le x (sortBy le xs)

/-- `svn_node_kind_t`. -/
inductive Kind
  | none | file | dir | symlink | unknown
  deriving Repr, DecidableEq

/-- Row presence/status as reported by `svn_wc__db_depth_get_info`
(the spec's presence values for one NODES layer). -/
inductive Status
  | normal | notPresent | baseDeleted | excluded | incomplete | deleted
  deriving Repr, DecidableEq

/-- `svn_wc_operation_t`. -/
inductive Operation
  | opNone | update | switch | merge
  deriving Repr, DecidableEq

/-- `svn_wc_conflict_reason_t` (the values used by this file). -/
inductive ConflictReason
  | edited | deleted | movedAway | unversioned
  deriving Repr, DecidableEq

/-- `svn_wc_conflict_action_t`. -/
inductive ConflictAction
  | add | edit | delete
  deriving Repr, DecidableEq

/-- `svn_wc_notify_action_t` (the values used by this file). -/
inductive NotifyAction
  | updateUpdate | updateAdd | updateDelete | treeConflict | moveBroken
  deriving Repr, DecidableEq

/-- `svn_wc_notify_state_t` (the values used by this file). -/
inductive NotifyState
  | inapplicable | unknown | unchanged | changed | merged | conflicted
  deriving Repr, DecidableEq

/-- `svn_wc_merge_outcome_t`. -/
inductive MergeOutcome
  | unchanged | merged | conflicted | noMerge
  deriving Repr, DecidableEq

/-- `svn_depth_t` (the values used by this file). -/
inductive Depth
  | unknown | empty | files | immediates | infinity
  deriving Repr, DecidableEq

/-- The closed error taxonomy of the resolver; each constructor stands
for one `svn_error_createf` site (or error code) of the source. -/
inductive Err
  | pathNotFound
  | notLocked
  | obstructedUpdate
  | alreadyInConflict
  | mixedRevisionSource
  | switchedSubtree
  | notDeleted
  | notMovedAway
  | unsupportedOperation
  | assertionFailed
  | malfunction
  | recursionLimit
  deriving Repr, DecidableEq

/-- A property list (canonical association list `name ↦ value`). -/
abbrev Props := List (String × String)

/-- A single property change, as produced by `svn_prop_diffs`:
`(name, some v)` sets, `(name, none)` deletes. -/
abbrev PropChange := String × Option String

/-- Value of property `k` in a property list. -/
def propsGet (ps : Props) (k : String) : Option String :=
  (ps.find? (fun kv => kv.1 = k)).map (·.2)

/-- `svn_prop_diffs`: the changes that turn `old` into `new`. -/
def propDiffs (new old : Props) : List PropChange :=
  (new.filterMap fun kv =>
    if propsGet old kv.1 = some kv.2 then none else some (kv.1, some kv.2))
  ++ (old.filterMap fun kv =>
    if (propsGet new kv.1).isNone then some (kv.1, (none : Option String)) else none)

/-- `props_match` (source lines 1788-1806): both null hashes match, a
single null hash does not, otherwise the property diff must be empty. -/
def propsMatchB : Option Props → Option Props → Bool
  | Option.none, Option.none => true
  | some xs, some ys => (propDiffs xs ys).isEmpty
  | _, _ => false

/-- `svn_checksum_match`: a null checksum matches anything. -/
def checksumMatchB : Option Nat → Option Nat → Bool
  | some x, some y => x == y
  | _, _ => true

/-- `children_match` (source lines 1764-1783): equal length and
pairwise equal base names. -/
def childrenMatchB : List String → List String → Bool
  | [], [] => true
  | a :: as, b :: bs => a == b && childrenMatchB as bs
  | _, _ => false

/-- One NODES row at a (relpath, op-depth) key. -/
structure NodeRow where
  status : Status
  kind : Kind
  revision : Int
  reposRelpath : Option RelPath
  checksum : Option Nat
  props : Option Props
  movedTo : Option RelPath
  movedHere : Bool
  deriving Repr, DecidableEq

/-- The NODES table: rows keyed by (relpath, op-depth). -/
abbrev Nodes := List ((RelPath × Int) × NodeRow)

/-- Row lookup at an exact (relpath, op-depth) key. -/
def lookupNode (nodes : Nodes) (p : RelPath) (d : Int) : Option NodeRow :=
  (nodes.find? (fun e => e.1.1 = p ∧ e.1.2 = d)).map (·.2)

/-- Insert-or-replace of a row. -/
def insertNode (nodes : Nodes) (p : RelPath) (d : Int) (r : NodeRow) : Nodes :=
  ((p, d), r) :: nodes.filter (fun e => ¬ (e.1.1 = p ∧ e.1.2 = d))

/-- All op-depths that have a row at `p`. -/
def opDepthsAt (nodes : Nodes) (p : RelPath) : List Int :=
  nodes.filterMap fun e => if e.1.1 = p then some e.1.2 else none

/-- Minimum of a list of integers, if any. -/
def listMin (xs : List Int) : Option Int :=
  xs.foldl (fun acc x => match acc with
    | Option.none => some x
    | some m => some (min m x)) Option.none

/-- Maximum of a list of integers, if any. -/
def listMax (xs : List Int) : Option Int :=
  xs.foldl (fun acc x => match acc with
    | Option.none => some x
    | some m => some (max m x)) Option.none

/-- Modelled from the spec: `STMT_SELECT_LOWEST_WORKING_NODE` — the
lowest op-depth strictly above `opd` that has a row at `p` (spec §4.4:
"the lowest working layer strictly above Dd"). -/
def lowestWorkingAbove (nodes : Nodes) (p : RelPath) (opd : Int) : Option Int :=
  listMin ((opDepthsAt nodes p).filter (fun d => opd < d))

/-- Modelled from the spec: `STMT_SELECT_HIGHEST_WORKING_NODE` — the
highest op-depth strictly below `opd` that has a row at `p`. -/
def highestWorkingBelow (nodes : Nodes) (p : RelPath) (opd : Int) : Option Int :=
  listMax ((opDepthsAt nodes p).filter (fun d => d < opd))

/-- Modelled from the spec: `STMT_SELECT_WORKING_NODE` — the highest
op-depth above zero that has a row at `p` (used by the shadow check). -/
def highestWorkingNode (nodes : Nodes) (p : RelPath) : Option Int :=
  listMax ((opDepthsAt nodes p).filter (fun d => 0 < d))

/-- All (path, row) pairs of the layer `opd` inside the subtree rooted
at `root` (the root itself included), in table order
(`STMT_SELECT_LOCAL_RELPATH_OP_DEPTH`). -/
def selectSubtreeAtDepth (nodes : Nodes) (root : RelPath) (opd : Int) :
    List (RelPath × NodeRow) :=
  nodes.filterMap fun e =>
    if e.1.2 = opd ∧ isAncestor root e.1.1 then some (e.1.1, e.2) else none

/-- Modelled from the spec: `STMT_UPDATE_OP_DEPTH_RECURSIVE` — move
every row of the subtree at op-depth `fromD` to op-depth `toD`
(spec §4.3: "reparent the modified layer to a shallower op-depth"). -/
def updateOpDepthRecursive (nodes : Nodes) (root : RelPath) (fromD toD : Int) : Nodes :=
  nodes.map fun e =>
    if isAncestor root e.1.1 ∧ e.1.2 = fromD then ((e.1.1, toD), e.2) else e

/-- Modelled from the spec: `STMT_DELETE_WORKING_OP_DEPTH_ABOVE` —
delete every row of the subtree whose op-depth is strictly above `opd`
(spec §4.3: "delete the working rows above this op-depth"). -/
def deleteWorkingOpDepthAbove (nodes : Nodes) (root : RelPath) (opd : Int) : Nodes :=
  nodes.filter fun e => ¬ (isAncestor root e.1.1 ∧ opd < e.1.2)

/-- Modelled from the spec: `STMT_DELETE_WORKING_OP_DEPTH` — delete
every row of the subtree at op-depth `opd` exactly. -/
def deleteWorkingOpDepthAt (nodes : Nodes) (root : RelPath) (opd : Int) : Nodes :=
  nodes.filter fun e => ¬ (isAncestor root e.1.1 ∧ e.1.2 = opd)

/-- Modelled from the spec: `STMT_DELETE_NO_LOWER_LAYER` — delete the
subtree rows at `opd` that do not shadow a row at `opdBelow`. -/
def deleteNoLowerLayer (nodes : Nodes) (root : RelPath) (opd opdBelow : Int) : Nodes :=
  nodes.filter fun e =>
    ¬ (isAncestor root e.1.1 ∧ e.1.2 = opd ∧ (lookupNode nodes e.1.1 opdBelow).isNone)

/-- Modelled from the spec: `STMT_REPLACE_WITH_BASE_DELETED` — convert
the remaining subtree rows at `opd` to presence base-deleted. -/
def replaceWithBaseDeleted (nodes : Nodes) (root : RelPath) (opd : Int) : Nodes :=
  nodes.map fun e =>
    if isAncestor root e.1.1 ∧ e.1.2 = opd then
      (e.1, { e.2 with status := Status.baseDeleted, reposRelpath := Option.none,
                       checksum := Option.none, props := Option.none })
    else e

/-- A fresh base-deleted shadow row of the given kind. -/
def baseDeletedRow (kind : Kind) : NodeRow :=
  { status := Status.baseDeleted, kind := kind, revision := -1,
    reposRelpath := Option.none, checksum := Option.none, props := Option.none,
    movedTo := Option.none, movedHere := false }

/-- Modelled from the spec: `svn_wc__db_extend_parent_delete` —
"maintain base-delete shadows when a node is added above a lower
layer" (spec §4.1).  If the parent has a working layer strictly above
`opd` and `p` is not itself covered at or below that layer, insert a
base-deleted shadow row for `p` there. -/
def extendParentDelete (nodes : Nodes) (p : RelPath) (kind : Kind) (opd : Int) : Nodes :=
  match lowestWorkingAbove nodes (relpathDirname p) opd with
  | Option.none => nodes
  | some parentOpd =>
    match lowestWorkingAbove nodes p opd with
    | Option.none => insertNode nodes p parentOpd (baseDeletedRow kind)
    | some ownOpd =>
      if parentOpd < ownOpd then insertNode nodes p parentOpd (baseDeletedRow kind)
      else nodes

/-- Modelled from the spec: `svn_wc__db_retract_parent_delete` —
remove the base-deleted shadow row for `p` at the parent's working
layer above `opd`, if present. -/
def retractParentDelete (nodes : Nodes) (p : RelPath) (opd : Int) : Nodes :=
  match lowestWorkingAbove nodes (relpathDirname p) opd with
  | Option.none => nodes
  | some parentOpd =>
    nodes.filter fun e =>
      ¬ (e.1.1 = p ∧ e.1.2 = parentOpd ∧ e.2.status = Status.baseDeleted)

/-- `svn_wc_conflict_version_t`: one repository location. -/
structure ConflictVersion where
  reposUrl : String
  reposUuid : String
  pathInRepos : RelPath
  pegRev : Int
  nodeKind : Kind
  deriving Repr, DecidableEq

/-- The tree-conflict part of a conflict skeleton: reason, action and
(for moved-away reasons) the move source op-root recorded with it. -/
structure TreeConflictInfo where
  reason : ConflictReason
  action : ConflictAction
  moveSrcOpRoot : Option RelPath
  deriving Repr, DecidableEq

/-- A conflict skeleton stored in the ACTUAL table (spec §3:
kind, operation, old/new versions, reason, action, source op-root). -/
structure ConflictSkel where
  operation : Operation
  treeConflict : Option TreeConflictInfo
  textConflict : Bool
  propConflict : Bool
  oldVersion : Option ConflictVersion
  newVersion : Option ConflictVersion
  deriving Repr, DecidableEq

/-- `svn_wc__conflict_skel_create`: an empty skeleton. -/
def emptySkel : ConflictSkel :=
  { operation := Operation.opNone, treeConflict := Option.none,
    textConflict := false, propConflict := false,
    oldVersion := Option.none, newVersion := Option.none }

/-- A deferred work-queue item (spec §3 work items). -/
inductive WorkItem
  | fileInstall (path : RelPath) (source : Option RelPath) (recordInfo : Bool)
  | dirInstall (path : RelPath)
  | fileRemove (path : RelPath)
  | dirRemove (path : RelPath)
  | mergeItem (path : RelPath)
  | conflictMarkers (path : RelPath)
  deriving Repr, DecidableEq

/-- A spooled notification record (update_move_list row). -/
structure Notification where
  path : RelPath
  action : NotifyAction
  kind : Kind
  contentState : NotifyState
  propState : NotifyState
  deriving Repr, DecidableEq

/-- Observable edit events; each receiver operation records its
invocation, and the merger records its invocation, so theorems can
speak about "a delete was emitted" etc. -/
inductive EditEvent
  | visit (src dst : RelPath) (shadowed : Bool)
  | deleteEv (dst : RelPath) (shadowed : Bool)
  | retractLayer (dst : RelPath)
  | addFileEv (dst : RelPath) (shadowed : Bool)
  | addDirEv (dst : RelPath) (shadowed : Bool)
  | alterFileEv (dst : RelPath) (shadowed : Bool)
  | alterDirEv (dst : RelPath) (shadowed : Bool)
  | mergeInvoked (oldPristine newPristine : Option Nat) (target : RelPath)
  deriving Repr, DecidableEq

/-- The transactional working-copy state: NODES, the ACTUAL props and
conflicts, the work queue and notification spools, the receiver's
remembered conflict root, the bump engine's done-set, and the event
trace. -/
structure WcState where
  nodes : Nodes
  actualProps : List (RelPath × Props)
  conflicts : List (RelPath × ConflictSkel)
  wq : List WorkItem
  moveList : List Notification
  conflictRoot : Option RelPath
  srcDone : List RelPath
  trace : List EditEvent
  deriving Repr, DecidableEq

/-- Append an event to the trace. -/
def pushTrace (s : WcState) (e : EditEvent) : WcState :=
  { s with trace := s.trace ++ [e] }

/-- `svn_wc__db_read_conflict_internal` as a table lookup (a missing
ACTUAL row is reported as no conflict by the caller). -/
def lookupConflict (s : WcState) (p : RelPath) : Option ConflictSkel :=
  (s.conflicts.find? (fun e => e.1 = p)).map (·.2)

/-- `svn_wc__db_mark_conflict_internal`: store a skeleton. -/
def insertConflict (cs : List (RelPath × ConflictSkel)) (p : RelPath)
    (c : ConflictSkel) : List (RelPath × ConflictSkel) :=
  (p, c) :: cs.filter (fun e => ¬ e.1 = p)

/-- ACTUAL props lookup. -/
def lookupActualProps (s : WcState) (p : RelPath) : Option Props :=
  (s.actualProps.find? (fun e => e.1 = p)).map (·.2)

/-- `svn_wc__db_op_set_props_internal`: write (or with `none` clear)
the ACTUAL props row. -/
def setActualProps (s : WcState) (p : RelPath) : Option Props → WcState
  | Option.none => { s with actualProps := s.actualProps.filter (fun e => ¬ e.1 = p) }
  | some ps => { s with actualProps :=
      (p, ps) :: s.actualProps.filter (fun e => ¬ e.1 = p) }

/-- `svn_wc__db_wq_add`: append work items to the spool. -/
def wqAdd (s : WcState) (items : List WorkItem) : WcState :=
  { s with wq := s.wq ++ items }

/-- `update_move_list_add` (source lines 496-514): spool one
notification row. -/
def updateMoveListAdd (s : WcState) (p : RelPath) (action : NotifyAction)
    (kind : Kind) (contentState propState : NotifyState) : WcState :=
  { s with moveList := s.moveList ++
      [{ path := p, action := action, kind := kind,
         contentState := contentState, propState := propState }] }

/-- Result of the external property merger (`svn_wc__merge_props`). -/
structure PropMergeRes where
  conflict : Bool
  state : NotifyState
  newActual : Props
  deriving Repr, DecidableEq

/-- Result of the external text merger (`svn_wc__internal_merge`). -/
structure MergeRes where
  outcome : MergeOutcome
  textConflict : Bool
  deriving Repr, DecidableEq

/-- The external collaborators: lock table, disk, modification checks,
the property merger and the text merger, and the repository identity
(spec §6). -/
structure Env where
  lockOwned : RelPath → Bool
  diskKind : RelPath → Kind
  fileModified : RelPath → Bool
  localMods : RelPath → Bool × Bool
  mergeProps : Option Props → Props → List PropChange → PropMergeRes
  merge : Option Nat → Option Nat → RelPath → Props → List PropChange → MergeRes
  reposRootUrl : String
  reposUuid : String

/-- The `update_move_baton_t` fields that stay fixed over a drive
(the mutable `conflict_root_relpath` lives in `WcState`). -/
structure Baton where
  moveRootDstRelpath : RelPath
  operation : Operation
  oldVersion : ConflictVersion
  newVersion : ConflictVersion
  deriving Repr, DecidableEq

/-- All info about one version of a working node
(`working_node_version_t`). -/
structure WorkingVersion where
  locationAndKind : ConflictVersion
  props : Option Props
  checksum : Option Nat
  deriving Repr, DecidableEq

/-- Result record of `svn_wc__db_op_depth_moved_to`. -/
structure MovedToInfo where
  movedDst : Option RelPath
  dstOpRoot : Option RelPath
  srcRoot : Option RelPath
  srcOpRoot : Option RelPath
  deriving Repr, DecidableEq

/-- The moved-to target recorded at `p` itself in a layer strictly
above `above`, lowest such layer first. -/
def movedToRowAt (nodes : Nodes) (p : RelPath) (above : Int) : Option RelPath :=
  let cands := nodes.filterMap fun e =>
    if e.1.1 = p ∧ above < e.1.2 ∧ e.2.movedTo.isSome
    then some (e.1.2, e.2.movedTo.getD []) else Option.none
  (cands.foldl (fun acc x => match acc with
    | Option.none => some x
    | some m => if x.1 < m.1 then some x else some m) Option.none).map (·.2)

/-- Modelled from the spec: `svn_wc__db_op_depth_moved_to` — "finds
the move whose source covers `path` at any op-depth strictly greater
than the argument" (spec §4.1); ancestors are climbed and the
destination is re-joined with the remainder.  Fuel is the path depth. -/
def opDepthMovedToN (nodes : Nodes) : Nat → RelPath → Int → MovedToInfo
  | fuel, p, above =>
    match movedToRowAt nodes p above with
    | some m => { movedDst := some m, dstOpRoot := some m,
                  srcRoot := some p, srcOpRoot := some p }
    | Option.none =>
      match fuel, p with
      | fuel' + 1, _ :: _ =>
        let r := opDepthMovedToN nodes fuel' p.dropLast above
        { r with movedDst := r.movedDst.map (· ++ [p.getLastD ""]) }
      | _, _ =>
        { movedDst := Option.none, dstOpRoot := Option.none,
          srcRoot := Option.none, srcOpRoot := Option.none }

/-- `svn_wc__db_op_depth_moved_to` entry point. -/
def opDepthMovedTo (nodes : Nodes) (p : RelPath) (above : Int) : MovedToInfo :=
  opDepthMovedToN nodes p.length p above

/-- `verify_write_lock` (source lines 436-457). -/
def verifyWriteLock (env : Env) (p : RelPath) : Except Err Unit :=
  if env.lockOwned p then Except.ok () else Except.error Err.notLocked

/-- `mark_tree_conflict` (source lines 574-726).  Composes old/new
repository versions from the given repository path, leaves an
existing equivalent tree conflict alone, rejects an incompatible one
with `ObstructedUpdate`, and otherwise stores the new skeleton and
spools a tree-conflict notification.  The version composition (source
lines 598-617) is split out as `composedNewReposRelpath`: the subpath
of the old repository location under the old version root re-joined
onto the new version root, falling back to the subpath of the
destination path under the move root (asserted to exist). -/
def composedNewReposRelpath (oldVersion newVersion : ConflictVersion)
    (moveRootDstRelpath localRelpath : RelPath)
    (oldReposRelpath : Option RelPath) : Option RelPath :=
  let oldPart := oldReposRelpath.bind (skipAncestor oldVersion.pathInRepos)
  match oldPart.map (fun part => newVersion.pathInRepos ++ part) with
  | some r => some r
  | Option.none =>
    (skipAncestor moveRootDstRelpath localRelpath).map
      (fun child => newVersion.pathInRepos ++ child)

/-- `mark_tree_conflict` body (source lines 619-726), see
`composedNewReposRelpath` for the version composition. -/
def markTreeConflict (s : WcState) (localRelpath : RelPath)
    (oldVersion newVersion : ConflictVersion) (moveRootDstRelpath : RelPath)
    (operation : Operation) (oldKind newKind : Kind)
    (oldReposRelpath : Option RelPath) (reason : ConflictReason)
    (action : ConflictAction) (moveSrcOpRootRelpath : Option RelPath) :
    Except Err WcState :=
  match composedNewReposRelpath oldVersion newVersion moveRootDstRelpath
      localRelpath oldReposRelpath with
  | Option.none => Except.error Err.assertionFailed
  | some newReposRelpath =>
    let finish : ConflictSkel → Except Err WcState := fun base =>
      let tcInfo : TreeConflictInfo :=
        { reason := reason, action := action,
          moveSrcOpRoot := moveSrcOpRootRelpath }
      let withTree := { base with treeConflict := some tcInfo }
      let conflictOld :=
        if reason ≠ ConflictReason.unversioned ∧ oldReposRelpath.isSome then
          some { oldVersion with pathInRepos := oldReposRelpath.getD [],
                                 nodeKind := oldKind }
        else Option.none
      let conflictNew :=
        some { newVersion with pathInRepos := newReposRelpath, nodeKind := newKind }
      if operation = Operation.update ∨ operation = Operation.switch then
        let skel :=
          { withTree with
              operation := operation
              oldVersion := conflictOld
              newVersion := conflictNew }
        let s1 := { s with conflicts := insertConflict s.conflicts localRelpath skel }
        Except.ok (updateMoveListAdd s1 localRelpath NotifyAction.treeConflict
                     newKind NotifyState.inapplicable NotifyState.inapplicable)
      else Except.error Err.assertionFailed
    match lookupConflict s localRelpath with
    | some existing =>
      if existing.operation ≠ Operation.update
          ∧ existing.operation ≠ Operation.switch then
        Except.error Err.alreadyInConflict
      else
        match existing.treeConflict with
        | some tc =>
          if reason ≠ tc.reason ∨ action ≠ tc.action
              ∨ (reason = ConflictReason.movedAway
                 ∧ moveSrcOpRootRelpath ≠ tc.moveSrcOpRoot) then
            Except.error Err.obstructedUpdate
          else Except.ok s
        | Option.none => finish existing
    | Option.none => finish emptySkel

/-- `check_node_shadowed` (source lines 729-755): the path is shadowed
when its highest working layer lies above the move root's op-depth. -/
def checkNodeShadowed (b : Baton) (s : WcState) (localRelpath : RelPath) : Bool :=
  match highestWorkingNode s.nodes localRelpath with
  | Option.none => decide ((-1 : Int) > relpathDepth b.moveRootDstRelpath)
  | some d => decide (d > relpathDepth b.moveRootDstRelpath)

/-- The widening loop of `check_tree_conflict` (source lines 808-817):
climb to the op-root of the found layer, turning the kinds into
directories, the action into edit, and taking the dirname of the old
repository path at each step.  Fuel is the starting path depth. -/
def widenLoopN : Nat → RelPath → Int → Kind → Kind → Option RelPath → ConflictAction →
    (RelPath × Kind × Kind × Option RelPath × ConflictAction)
  | 0, p, _, oldKind, newKind, orr, act => (p, oldKind, newKind, orr, act)
  | fuel + 1, p, opd, oldKind, newKind, orr, act =>
    if relpathDepth p > opd then
      widenLoopN fuel p.dropLast opd Kind.dir Kind.dir (orr.map relpathDirname)
        ConflictAction.edit
    else (p, oldKind, newKind, orr, act)

/-- The body of `check_tree_conflict` after the remembered-conflict
gate (source lines 791-839). -/
def checkTreeConflictBody (b : Baton) (s : WcState) (localRelpath : RelPath)
    (oldKind newKind : Kind) (oldReposRelpath : Option RelPath)
    (action : ConflictAction) : Except Err (Bool × WcState) :=
  let dstOpDepth := relpathDepth b.moveRootDstRelpath
  match lowestWorkingAbove s.nodes localRelpath dstOpDepth with
  | Option.none => Except.ok (false, s)
  | some opd =>
    let w := widenLoopN localRelpath.length localRelpath opd oldKind newKind
               oldReposRelpath action
    let root := w.1
    let mv := opDepthMovedTo s.nodes root dstOpDepth
    match markTreeConflict s root b.oldVersion b.newVersion b.moveRootDstRelpath
        b.operation w.2.1 w.2.2.1 w.2.2.2.1
        (if mv.movedDst.isSome then ConflictReason.movedAway
         else ConflictReason.deleted)
        w.2.2.2.2 mv.srcOpRoot with
    | Except.error e => Except.error e
    | Except.ok s1 => Except.ok (true, { s1 with conflictRoot := some root })

/-- `check_tree_conflict` (source lines 763-840): a path at or under
the remembered conflict root is conflicted without any new record;
otherwise the remembered root is dropped and the body runs. -/
def checkTreeConflict (b : Baton) (s : WcState) (localRelpath : RelPath)
    (oldKind newKind : Kind) (oldReposRelpath : Option RelPath)
    (action : ConflictAction) : Except Err (Bool × WcState) :=
  match s.conflictRoot with
  | some cr =>
    if (skipAncestor cr localRelpath).isSome then Except.ok (true, s)
    else checkTreeConflictBody b { s with conflictRoot := Option.none }
           localRelpath oldKind newKind oldReposRelpath action
  | Option.none =>
    checkTreeConflictBody b s localRelpath oldKind newKind oldReposRelpath action

/-- Sorted base names of the children of `p` in layer `opd`
(`svn_wc__db_get_children_op_depth` + `svn_sort__hash`). -/
def getChildrenNames (nodes : Nodes) (p : RelPath) (opd : Int) : List String :=
  sortStrings (nodes.filterMap fun e =>
    if e.1.2 = opd then
      match skipAncestor p e.1.1 with
      | some [n] => some n
      | _ => Option.none
    else Option.none)

/-- The result record of `get_info`. -/
structure NodeInfo where
  props : Option Props
  checksum : Option Nat
  children : List String
  kind : Kind
  deriving Repr, DecidableEq

/-- `get_info` (source lines 1694-1759).  A missing row, or a
deleted-status row without a repository location, is reported as kind
none with null checksum, null props and no children; a deleted-status
row with a repository location keeps its stored kind but still
reports null checksum, null props and no children; any other row is
reported in full with its sorted child names. -/
def getInfo (nodes : Nodes) (localRelpath : RelPath) (opd : Int) : NodeInfo :=
  match lookupNode nodes localRelpath opd with
  | Option.none =>
    { props := Option.none, checksum := Option.none, children := [],
      kind := Kind.none }
  | some row =>
    if row.status = Status.deleted then
      { props := Option.none, checksum := Option.none, children := [],
        kind := if row.reposRelpath.isNone then Kind.none else row.kind }
    else
      { props := row.props, checksum := row.checksum,
        children := getChildrenNames nodes localRelpath opd, kind := row.kind }

/-- `tc_editor_add_directory` (source lines 842-925). -/
def tcEditorAddDirectory (env : Env) (b : Baton) (s0 : WcState)
    (relpath : RelPath) (_props : Option Props) (shadowed : Bool) :
    Except Err WcState :=
  let s := pushTrace s0 (EditEvent.addDirEv relpath shadowed)
  let dstOpDepth := relpathDepth b.moveRootDstRelpath
  let info := lookupNode s.nodes relpath dstOpDepth
  let oldKind := match info with
    | Option.none => Kind.none
    | some row => row.kind
  let moveDstReposRelpath := match info with
    | Option.none => Option.none
    | some row => row.reposRelpath
  match checkTreeConflict b s relpath oldKind Kind.dir moveDstReposRelpath
      ConflictAction.add with
  | Except.error e => Except.error e
  | Except.ok (isConflicted, s1) =>
    if isConflicted || shadowed then Except.ok s1
    else
      match env.diskKind relpath with
      | Kind.none =>
        let s2 := wqAdd s1 [WorkItem.dirInstall relpath]
        Except.ok (updateMoveListAdd s2 relpath NotifyAction.updateAdd Kind.dir
          NotifyState.inapplicable NotifyState.inapplicable)
      | Kind.dir =>
        Except.ok (updateMoveListAdd s1 relpath NotifyAction.updateAdd Kind.dir
          NotifyState.inapplicable NotifyState.inapplicable)
      | diskK =>
        match markTreeConflict s1 relpath b.oldVersion b.newVersion
            b.moveRootDstRelpath b.operation diskK Kind.dir moveDstReposRelpath
            ConflictReason.unversioned ConflictAction.add Option.none with
        | Except.error e => Except.error e
        | Except.ok s2 => Except.ok { s2 with conflictRoot := some relpath }

/-- `tc_editor_add_file` (source lines 927-1007). -/
def tcEditorAddFile (env : Env) (b : Baton) (s0 : WcState)
    (relpath : RelPath) (_checksum : Option Nat) (_props : Option Props)
    (shadowed : Bool) : Except Err WcState :=
  let s := pushTrace s0 (EditEvent.addFileEv relpath shadowed)
  let dstOpDepth := relpathDepth b.moveRootDstRelpath
  let info := lookupNode s.nodes relpath dstOpDepth
  let oldKind := match info with
    | Option.none => Kind.none
    | some row => row.kind
  let moveDstReposRelpath := match info with
    | Option.none => Option.none
    | some row => row.reposRelpath
  match checkTreeConflict b s relpath oldKind Kind.file moveDstReposRelpath
      ConflictAction.add with
  | Except.error e => Except.error e
  | Except.ok (isConflicted, s1) =>
    if isConflicted || shadowed then Except.ok s1
    else
      match env.diskKind relpath with
      | Kind.none =>
        let s2 := wqAdd s1 [WorkItem.fileInstall relpath Option.none true]
        Except.ok (updateMoveListAdd s2 relpath NotifyAction.updateAdd Kind.file
          NotifyState.inapplicable NotifyState.inapplicable)
      | diskK =>
        match markTreeConflict s1 relpath b.oldVersion b.newVersion
            b.moveRootDstRelpath b.operation diskK Kind.file moveDstReposRelpath
            ConflictReason.unversioned ConflictAction.add Option.none with
        | Except.error e => Except.error e
        | Except.ok s2 => Except.ok { s2 with conflictRoot := some relpath }

/-- Modelled from the spec: `svn_wc__db_read_props_internal` — the
ACTUAL props if a row exists, otherwise the node's own (pre-update)
props (spec §4.4 "current actual as merge-right"). -/
def readPropsInternal (s : WcState) (p : RelPath) (nodeProps : Option Props) : Props :=
  (lookupActualProps s p).getD (nodeProps.getD [])

/-- Result of `update_working_props`: notify state, whether a property
conflict skeleton was produced, the prop changes, the actual props
that were read, and the updated state. -/
structure PropsUpdateRes where
  propState : NotifyState
  conflictSkel : Bool
  propChanges : List PropChange
  actualProps : Props
  state : WcState
  deriving Repr, DecidableEq

/-- `update_working_props` (source lines 1074-1127): run the external
three-way property merge, then clear the ACTUAL row when the merged
result equals the new node props, else write it. -/
def updateWorkingProps (env : Env) (s : WcState) (localRelpath : RelPath)
    (oldVersion newVersion : WorkingVersion) : PropsUpdateRes :=
  let actualProps := readPropsInternal s localRelpath oldVersion.props
  let propChanges := propDiffs (newVersion.props.getD []) (oldVersion.props.getD [])
  let mergeRes := env.mergeProps oldVersion.props actualProps propChanges
  let newPropChanges := propDiffs mergeRes.newActual (newVersion.props.getD [])
  let newActual := if newPropChanges.isEmpty then Option.none else some mergeRes.newActual
  { propState := mergeRes.state, conflictSkel := mergeRes.conflict,
    propChanges := propChanges, actualProps := actualProps,
    state := setActualProps s localRelpath newActual }

/-- The conflict skeleton persisted by `update_working_file` /
`tc_editor_alter_directory` when text or property conflicts arose
(`create_conflict_markers` + `svn_wc__db_mark_conflict_internal`). -/
def contentConflictSkel (operation : Operation) (oldV newV : WorkingVersion)
    (kind : Kind) (textConflict propConflict : Bool) : ConflictSkel :=
  { operation := operation, treeConflict := Option.none,
    textConflict := textConflict, propConflict := propConflict,
    oldVersion := some { oldV.locationAndKind with nodeKind := kind },
    newVersion := some { newV.locationAndKind with nodeKind := kind } }

/-- `update_working_file` (source lines 1231-1348).  Merge props; if
the checksums differ install (unmodified) or run the external
three-way merger (modified); persist conflict skeletons as marker
work items; spool one update notification with the content and
property states. -/
def updateWorkingFile (env : Env) (_b : Baton) (s0 : WcState)
    (localRelpath : RelPath) (_reposRelpath : Option RelPath)
    (operation : Operation) (oldVersion newVersion : WorkingVersion) : WcState :=
  let pr := updateWorkingProps env s0 localRelpath oldVersion newVersion
  let step :=
    if checksumMatchB newVersion.checksum oldVersion.checksum = false then
      if env.fileModified localRelpath = false then
        (pr.state, [WorkItem.fileInstall localRelpath Option.none true],
         pr.conflictSkel, false, NotifyState.changed)
      else
        let s1 := pushTrace pr.state
          (EditEvent.mergeInvoked oldVersion.checksum newVersion.checksum localRelpath)
        let mr := env.merge oldVersion.checksum newVersion.checksum localRelpath
          pr.actualProps pr.propChanges
        (s1, [WorkItem.mergeItem localRelpath],
         pr.conflictSkel || mr.textConflict, mr.textConflict,
         if mr.outcome = MergeOutcome.conflicted then NotifyState.conflicted
         else NotifyState.merged)
    else
      (pr.state, [], pr.conflictSkel, false, NotifyState.unchanged)
  let s2 := step.1
  let items := step.2.1
  let anyConflict := step.2.2.1
  let textConflict := step.2.2.2.1
  let contentState := step.2.2.2.2
  let s3 :=
    if anyConflict then
      let skel := contentConflictSkel operation oldVersion newVersion Kind.file
        textConflict pr.conflictSkel
      wqAdd { s2 with conflicts := insertConflict s2.conflicts localRelpath skel }
        (items ++ [WorkItem.conflictMarkers localRelpath])
    else wqAdd s2 items
  updateMoveListAdd s3 localRelpath NotifyAction.updateUpdate Kind.file
    contentState pr.propState

/-- `tc_editor_alter_directory` (source lines 1129-1214). -/
def tcEditorAlterDirectory (env : Env) (b : Baton) (s0 : WcState)
    (dstRelpath : RelPath) (newProps : Option Props) (shadowed : Bool) :
    Except Err WcState :=
  let s := pushTrace s0 (EditEvent.alterDirEv dstRelpath shadowed)
  let dstOpDepth := relpathDepth b.moveRootDstRelpath
  match lookupNode s.nodes dstRelpath dstOpDepth with
  | Option.none => Except.error Err.pathNotFound
  | some row =>
    if row.kind ≠ Kind.dir then Except.error Err.assertionFailed
    else
      match checkTreeConflict b s dstRelpath row.kind Kind.dir row.reposRelpath
          ConflictAction.edit with
      | Except.error e => Except.error e
      | Except.ok (isConflicted, s1) =>
        if isConflicted || shadowed then Except.ok s1
        else
          match newProps with
          | Option.none => Except.ok s1
          | some np =>
            let oldV : WorkingVersion :=
              { locationAndKind := b.oldVersion, props := row.props,
                checksum := row.checksum }
            let newV : WorkingVersion :=
              { locationAndKind := b.newVersion, props := some np,
                checksum := Option.none }
            let pr := updateWorkingProps env s1 dstRelpath oldV newV
            let s2 :=
              if pr.conflictSkel then
                let skel := contentConflictSkel b.operation oldV newV Kind.dir
                  false true
                let cs := insertConflict pr.state.conflicts dstRelpath skel
                wqAdd { pr.state with conflicts := cs }
                  [WorkItem.conflictMarkers dstRelpath]
              else pr.state
            Except.ok (updateMoveListAdd s2 dstRelpath NotifyAction.updateUpdate
              Kind.dir NotifyState.inapplicable pr.propState)

/-- `tc_editor_alter_file` (source lines 1354-1404). -/
def tcEditorAlterFile (env : Env) (b : Baton) (s0 : WcState)
    (dstRelpath : RelPath) (newChecksum : Option Nat) (newProps : Option Props)
    (shadowed : Bool) : Except Err WcState :=
  let s := pushTrace s0 (EditEvent.alterFileEv dstRelpath shadowed)
  let dstOpDepth := relpathDepth b.moveRootDstRelpath
  match lookupNode s.nodes dstRelpath dstOpDepth with
  | Option.none => Except.error Err.pathNotFound
  | some row =>
    if row.kind ≠ Kind.file then Except.error Err.assertionFailed
    else
      match checkTreeConflict b s dstRelpath row.kind Kind.file row.reposRelpath
          ConflictAction.edit with
      | Except.error e => Except.error e
      | Except.ok (isConflicted, s1) =>
        if isConflicted || shadowed then Except.ok s1
        else
          let oldV : WorkingVersion :=
            { locationAndKind := b.oldVersion, props := row.props,
              checksum := row.checksum }
          let newV : WorkingVersion :=
            { locationAndKind := b.newVersion,
              props := match newProps with
                | some np => some np
                | Option.none => row.props,
              checksum := match newChecksum with
                | some c => some c
                | Option.none => row.checksum }
          if checksumMatchB newChecksum row.checksum = false ∨ newProps.isSome then
            Except.ok (updateWorkingFile env b s1 dstRelpath row.reposRelpath
              b.operation oldV newV)
          else Except.ok s1

/-- Modelled from the spec: `STMT_SELECT_CHILDREN_OP_DEPTH` — the
strict descendants of `root` in layer `opd` with their kinds, deepest
paths first (spec §4.3: "schedule removal of every existing child"). -/
def selectChildrenOpDepth (nodes : Nodes) (root : RelPath) (opd : Int) :
    List (RelPath × Kind) :=
  sortBy (fun a b => pathLeB b.1 a.1)
    (nodes.filterMap fun e =>
      if e.1.2 = opd ∧ isAncestor root e.1.1 ∧ e.1.1 ≠ root
      then some (e.1.1, e.2.kind) else Option.none)

/-- `tc_editor_delete` (source lines 1406-1552). -/
def tcEditorDelete (env : Env) (b : Baton) (s0 : WcState)
    (relpath : RelPath) (shadowed : Bool) : Except Err WcState :=
  let s := pushTrace s0 (EditEvent.deleteEv relpath shadowed)
  let opDepth := relpathDepth b.moveRootDstRelpath
  match lookupNode s.nodes relpath opDepth with
  | Option.none => Except.error Err.pathNotFound
  | some row =>
    match checkTreeConflict b s relpath row.kind Kind.unknown row.reposRelpath
        ConflictAction.delete with
    | Except.error e => Except.error e
    | Except.ok (isConflicted0, s1) =>
      if shadowed || isConflicted0 then Except.ok s1
      else
        let mods := env.localMods relpath
        let afterMods : Except Err (WcState × Bool × Bool) :=
          if mods.1 then
            let withReason :=
              if mods.2 = false then
                let n1 := updateOpDepthRecursive s1.nodes relpath opDepth
                  (relpathDepth relpath)
                ({ s1 with nodes := n1 }, ConflictReason.edited, false)
              else
                let n1 := deleteWorkingOpDepthAbove s1.nodes relpath opDepth
                ({ s1 with nodes := n1 }, ConflictReason.deleted, true)
            match markTreeConflict withReason.1 relpath b.oldVersion b.newVersion
                b.moveRootDstRelpath b.operation row.kind Kind.none
                row.reposRelpath withReason.2.1 ConflictAction.delete
                Option.none with
            | Except.error e => Except.error e
            | Except.ok s2 =>
              Except.ok ({ s2 with conflictRoot := some relpath }, true,
                withReason.2.2)
          else Except.ok (s1, false, false)
        match afterMods with
        | Except.error e => Except.error e
        | Except.ok (s2, isConflicted, mustDeleteWorkingNodes) =>
          if ¬ isConflicted || mustDeleteWorkingNodes then
            let children := selectChildrenOpDepth s2.nodes relpath opDepth
            let childItems := children.map fun c =>
              if c.2 = Kind.dir then WorkItem.dirRemove c.1
              else WorkItem.fileRemove c.1
            let s3 := wqAdd s2 childItems
            match lookupNode s3.nodes relpath opDepth with
            | Option.none => Except.error Err.pathNotFound
            | some row2 =>
              let s4 := wqAdd s3
                [if row2.kind = Kind.dir then WorkItem.dirRemove relpath
                 else WorkItem.fileRemove relpath]
              if ¬ isConflicted then
                Except.ok (updateMoveListAdd s4 relpath NotifyAction.updateDelete
                  row2.kind NotifyState.inapplicable NotifyState.inapplicable)
              else Except.ok s4
          else Except.ok s2

/-- `delete_move_leaf` (source lines 1555-1608): retract the
destination-layer rows of the subtree, keeping base-deleted stubs for
rows that shadow a lower layer of the parent, then retract any
base-delete shadow of the path itself. -/
def deleteMoveLeaf (b : Baton) (s0 : WcState) (relpath : RelPath) : WcState :=
  let s := pushTrace s0 (EditEvent.retractLayer relpath)
  let opDepth := relpathDepth b.moveRootDstRelpath
  let parentRelpath := relpathDirname relpath
  let nodes1 :=
    match highestWorkingBelow s.nodes parentRelpath opDepth with
    | some opDepthBelow =>
      replaceWithBaseDeleted
        (deleteNoLowerLayer s.nodes relpath opDepth opDepthBelow) relpath opDepth
    | Option.none =>
      deleteWorkingOpDepthAt s.nodes relpath opDepth
  { s with nodes := retractParentDelete nodes1 relpath opDepth }

/-- The delete step of `update_moved_away_node` (source lines
1835-1844): when the source is gone or has changed kind, drive the
receiver's delete and then retract the destination layer. -/
def walkDeletePart (env : Env) (b : Baton) (s : WcState) (dstRelpath : RelPath)
    (shadowed : Bool) (srcKind dstKind : Kind) : Except Err WcState :=
  if srcKind = Kind.none ∨ (dstKind ≠ Kind.none ∧ srcKind ≠ dstKind) then
    match tcEditorDelete env b s dstRelpath shadowed with
    | Except.error e => Except.error e
    | Except.ok s1 => Except.ok (deleteMoveLeaf b s1 dstRelpath)
  else Except.ok s

/-- The add/alter step of `update_moved_away_node` (source lines
1846-1897): a kind change becomes an add (extending the base-delete
when shadowed); matching kinds become an alter only when props,
checksum or child lists differ. -/
def walkAddAlterPart (env : Env) (b : Baton) (s : WcState) (dstRelpath : RelPath)
    (shadowed : Bool) (srcInfo dstInfo : NodeInfo) : Except Err WcState :=
  if srcInfo.kind ≠ Kind.none ∧ srcInfo.kind ≠ dstInfo.kind then
    let s1 :=
      if shadowed then
        let n1 := extendParentDelete s.nodes dstRelpath srcInfo.kind
          (relpathDepth b.moveRootDstRelpath)
        { s with nodes := n1 }
      else s
    if srcInfo.kind = Kind.file ∨ srcInfo.kind = Kind.symlink then
      tcEditorAddFile env b s1 dstRelpath srcInfo.checksum srcInfo.props shadowed
    else if srcInfo.kind = Kind.dir then
      tcEditorAddDirectory env b s1 dstRelpath srcInfo.props shadowed
    else Except.ok s1
  else if srcInfo.kind ≠ Kind.none then
    let props := if propsMatchB srcInfo.props dstInfo.props then Option.none
                 else srcInfo.props
    if srcInfo.kind = Kind.file ∨ srcInfo.kind = Kind.symlink then
      let srcChecksum :=
        if checksumMatchB srcInfo.checksum dstInfo.checksum then Option.none
        else srcInfo.checksum
      if props.isSome ∨ srcChecksum.isSome then
        tcEditorAlterFile env b s dstRelpath srcChecksum props shadowed
      else Except.ok s
    else if srcInfo.kind = Kind.dir then
      let children :=
        if childrenMatchB srcInfo.children dstInfo.children then Option.none
        else some srcInfo.children
      if props.isSome ∨ children.isSome then
        tcEditorAlterDirectory env b s dstRelpath props shadowed
      else Except.ok s
    else Except.ok s
  else Except.ok s

/-- The merge-walk over the two sorted child-name lists of
`update_moved_away_node` (source lines 1899-1957): two cursors, names
compared with `strcmp`, the shadow check run for every child whose
parent is not already shadowed.  Fuel is the total length. -/
def walkChildrenN (shadowCheck : WcState → String → Bool)
    (visit : WcState → String → Bool → Except Err WcState) :
    Nat → WcState → Bool → List String → List String → Except Err WcState
  | 0, s, _, _, _ => Except.ok s
  | fuel + 1, s, shadowed, ss, ds =>
    match ss, ds with
    | [], [] => Except.ok s
    | ss, ds =>
      let step : String × List String × List String :=
        match ss, ds with
        | [], d :: ds' => (d, [], ds')
        | s0 :: ss', [] => (s0, ss', [])
        | s0 :: ss', d :: ds' =>
          if s0 = d then (s0, ss', ds')
          else if strLtB s0 d then (s0, ss', d :: ds')
          else (d, s0 :: ss', ds')
        | [], [] => ("", [], [])
      let childShadowed := if shadowed then true else shadowCheck s step.1
      match visit s step.1 childShadowed with
      | Except.error e => Except.error e
      | Except.ok s' => walkChildrenN shadowCheck visit fuel s' shadowed step.2.1 step.2.2

/-- Modelled from the spec: the merged, lexicographically ordered list
of child names present on either side (spec §4.2 step 3).  Fuel is
the total length. -/
def mergeNamesN : Nat → List String → List String → List String
  | 0, ss, ds =>
    match ss, ds with
    | [], ds' => ds'
    | ss', _ => ss'
  | fuel + 1, ss, ds =>
    match ss, ds with
    | [], ds' => ds'
    | ss', [] => ss'
    | s0 :: ss', d :: ds' =>
      if s0 = d then s0 :: mergeNamesN fuel ss' ds'
      else if strLtB s0 d then s0 :: mergeNamesN fuel ss' (d :: ds')
      else d :: mergeNamesN fuel (s0 :: ss') ds'

/-- The merged child-name list. -/
def mergeNames (ss ds : List String) : List String :=
  mergeNamesN (ss.length + ds.length) ss ds

/-- Modelled from the spec: the walk over a single merged name list,
recursing once per name with the child flag equal to the parent flag
OR the shadow check on the destination child (spec §4.2 step 3). -/
def visitNameList (shadowCheck : WcState → String → Bool)
    (visit : WcState → String → Bool → Except Err WcState) :
    WcState → Bool → List String → Except Err WcState
  | s, _, [] => Except.ok s
  | s, shadowed, n :: ns =>
    let childShadowed := if shadowed then true else shadowCheck s n
    match visit s n childShadowed with
    | Except.error e => Except.error e
    | Except.ok s' => visitNameList shadowCheck visit s' shadowed ns

/-- `update_moved_away_node` (source lines 1810-1960): load both
sides, run the delete step and the add/alter step, and for source
directories merge-walk the children.  Fuel bounds the recursion
depth. -/
def updateMovedAwayNode (env : Env) (b : Baton) :
    Nat → WcState → RelPath → RelPath → Int → Bool → Except Err WcState
  | 0, _, _, _, _, _ => Except.error Err.recursionLimit
  | fuel + 1, s0, srcRelpath, dstRelpath, srcOpDepth, shadowed =>
    let s := pushTrace s0 (EditEvent.visit srcRelpath dstRelpath shadowed)
    let dstOpDepth := relpathDepth b.moveRootDstRelpath
    let srcInfo := getInfo s.nodes srcRelpath srcOpDepth
    let dstInfo := getInfo s.nodes dstRelpath dstOpDepth
    match walkDeletePart env b s dstRelpath shadowed srcInfo.kind dstInfo.kind with
    | Except.error e => Except.error e
    | Except.ok s1 =>
      match walkAddAlterPart env b s1 dstRelpath shadowed srcInfo dstInfo with
      | Except.error e => Except.error e
      | Except.ok s2 =>
        if srcInfo.kind = Kind.dir then
          walkChildrenN
            (fun st n => checkNodeShadowed b st (dstRelpath ++ [n]))
            (fun st n csh => updateMovedAwayNode env b fuel st
              (srcRelpath ++ [n]) (dstRelpath ++ [n]) srcOpDepth csh)
            (srcInfo.children.length + dstInfo.children.length)
            s2 shadowed srcInfo.children dstInfo.children
        else Except.ok s2

/-- Modelled from the spec: `STMT_COPY_NODE_MOVE` — copy the row at
(`srcP`, `srcOpd`) to (`dstP`, `dstOpd`), marking it moved-here and
keeping the destination's recorded moved-to (spec §4.1
`copy_node_move`). -/
def copyNodeMove (nodes : Nodes) (srcP : RelPath) (srcOpd : Int)
    (dstP : RelPath) (dstOpd : Int) : Nodes :=
  match lookupNode nodes srcP srcOpd with
  | Option.none => nodes
  | some row =>
    let oldMovedTo := (lookupNode nodes dstP dstOpd).bind (·.movedTo)
    insertNode nodes dstP dstOpd { row with movedHere := true, movedTo := oldMovedTo }

/-- `replace_moved_layer` (source lines 1965-2017): for every row of
the source subtree's layer at `srcOpDepth`, copy it to the mapped
path in the destination layer, and for paths strictly below the
destination root extend any base-delete above. -/
def replaceMovedLayer (s : WcState) (srcRelpath dstRelpath : RelPath)
    (srcOpDepth : Int) : WcState :=
  let dstOpDepth := relpathDepth dstRelpath
  let rows := selectSubtreeAtDepth s.nodes srcRelpath srcOpDepth
  let finalNodes := rows.foldl (fun nd pr =>
    match skipAncestor srcRelpath pr.1 with
    | Option.none => nd
    | some suffix =>
      let dstCp := dstRelpath ++ suffix
      let nd1 := copyNodeMove nd pr.1 srcOpDepth dstCp dstOpDepth
      if suffix.isEmpty then nd1
      else extendParentDelete nd1 dstCp pr.2.kind dstOpDepth) s.nodes
  { s with nodes := finalNodes }

/-- The loop body of `replace_moved_layer` (source lines 1977-2011),
one row of the source layer: copy it to the mapped destination path
and, for proper descendants, extend any base-delete above. -/
def replaceStep (srcRelpath dstRelpath : RelPath) (srcOpDepth : Int)
    (nd : Nodes) (pr : RelPath × NodeRow) : Nodes :=
  match skipAncestor srcRelpath pr.1 with
  | Option.none => nd
  | some suffix =>
    let dstCp := dstRelpath ++ suffix
    let nd1 := copyNodeMove nd pr.1 srcOpDepth dstCp (relpathDepth dstRelpath)
    if suffix.isEmpty then nd1
    else extendParentDelete nd1 dstCp pr.2.kind (relpathDepth dstRelpath)

/-- `drive_tree_conflict_editor` (source lines 2030-2071): refuse
non-update/switch operations, walk the two trees, then replace the
destination layer. -/
def driveTreeConflictEditor (env : Env) (fuel : Nat) (b : Baton) (s : WcState)
    (srcRelpath dstRelpath : RelPath) (srcOpDepth : Int) : Except Err WcState :=
  if b.operation ≠ Operation.update ∧ b.operation ≠ Operation.switch then
    Except.error Err.unsupportedOperation
  else
    match updateMovedAwayNode env b fuel s srcRelpath dstRelpath srcOpDepth
        false with
    | Except.error e => Except.error e
    | Except.ok s1 =>
      Except.ok (replaceMovedLayer s1 srcRelpath dstRelpath srcOpDepth)

/-- The scan loop of `suitable_for_move` (source lines 2100-2133):
every base row of the subtree must carry the root's revision (else
the mixed-revision error) and the repository path obtained from the
root's (else the switched-subtree error). -/
def suitableLoop (revision : Int) (reposRelpath : RelPath) (root : RelPath) :
    List (RelPath × NodeRow) → Except Err Unit
  | [] => Except.ok ()
  | (p, row) :: rest =>
    if row.revision ≠ revision then Except.error Err.mixedRevisionSource
    else
      let expected := reposRelpath ++ ((skipAncestor root p).getD [])
      if row.reposRelpath ≠ some expected then Except.error Err.switchedSubtree
      else suitableLoop revision reposRelpath root rest

/-- `suitable_for_move` (source lines 2073-2139). -/
def suitableForMove (s : WcState) (localRelpath : RelPath) : Except Err Unit :=
  match lookupNode s.nodes localRelpath 0 with
  | Option.none => Except.ok ()
  | some base =>
    suitableLoop base.revision (base.reposRelpath.getD []) localRelpath
      (selectSubtreeAtDepth s.nodes localRelpath 0)

/-- `update_moved_away_conflict_victim` (source lines 2143-2231):
locate the move destination, verify the write lock, find the source
op-depth, reject unsuitable op-depth-zero sources, reset the
notification list and drive the editor.  An error aborts the
transaction, so no spooled rows survive it. -/
def updateMovedAwayConflictVictim (env : Env) (fuel : Nat) (s : WcState)
    (victimRelpath : RelPath) (operation : Operation)
    (moveSrcOpRootRelpath : RelPath) (oldVersion newVersion : ConflictVersion) :
    Except Err WcState :=
  let mv := opDepthMovedTo s.nodes victimRelpath
    (relpathDepth moveSrcOpRootRelpath - 1)
  match mv.dstOpRoot with
  | Option.none => Except.error Err.notMovedAway
  | some moveRootDstRelpath =>
    if ¬ env.lockOwned moveRootDstRelpath then Except.error Err.notLocked
    else
      match highestWorkingBelow s.nodes moveSrcOpRootRelpath
          (relpathDepth moveSrcOpRootRelpath) with
      | Option.none => Except.error Err.notDeleted
      | some srcOpDepth =>
        let checked :=
          if srcOpDepth = 0 then suitableForMove s victimRelpath
          else Except.ok ()
        match checked with
        | Except.error e => Except.error e
        | Except.ok _ =>
          let s1 := { s with moveList := [] }
          let b : Baton :=
            { moveRootDstRelpath := moveRootDstRelpath, operation := operation,
              oldVersion := oldVersion, newVersion := newVersion }
          driveTreeConflictEditor env fuel b s1 victimRelpath
            moveRootDstRelpath srcOpDepth

/-- Modelled from the spec: `STMT_SELECT_OP_DEPTH_CHILDREN` — is
there any immediate child row of `p` in layer `opd`? -/
def hasOpDepthChildren (nodes : Nodes) (p : RelPath) (opd : Int) : Bool :=
  nodes.any fun e =>
    decide (e.1.2 = opd) && (match skipAncestor p e.1.1 with
      | some [_] => true
      | _ => false)

/-- Modelled from the spec: `STMT_SELECT_HAS_NON_FILE_CHILDREN` — is
there any immediate non-file child row of `p` in layer `opd`? -/
def hasNonFileChildren (nodes : Nodes) (p : RelPath) (opd : Int) : Bool :=
  nodes.any fun e =>
    decide (e.1.2 = opd) && decide (e.2.kind ≠ Kind.file)
      && (match skipAncestor p e.1.1 with
        | some [_] => true
        | _ => false)

/-- Modelled from the spec: `STMT_SELECT_HAS_GRANDCHILDREN` — is
there any row of layer `opd` at least two levels below `p`? -/
def hasGrandchildren (nodes : Nodes) (p : RelPath) (opd : Int) : Bool :=
  nodes.any fun e =>
    decide (e.1.2 = opd) && (match skipAncestor p e.1.1 with
      | some rest => decide (2 ≤ rest.length)
      | Option.none => false)

/-- `depth_sufficient_to_bump` (source lines 2312-2357): infinity
always suffices, empty only without children, files only without
non-file children, immediates only without grandchildren. -/
def depthSufficientToBump (nodes : Nodes) (localRelpath : RelPath) (opd : Int) :
    Depth → Except Err Bool
  | Depth.infinity => Except.ok true
  | Depth.empty => Except.ok (¬ hasOpDepthChildren nodes localRelpath opd)
  | Depth.files => Except.ok (¬ hasNonFileChildren nodes localRelpath opd)
  | Depth.immediates => Except.ok (¬ hasGrandchildren nodes localRelpath opd)
  | Depth.unknown => Except.error Err.malfunction

/-- `bump_mark_tree_conflict` (source lines 2360-2420): verify both
locks, read the post-update base of the source op-root and the
pre-update destination layer, and mark a moved-away/edit conflict on
the move source root. -/
def bumpMarkTreeConflict (env : Env) (s : WcState)
    (moveSrcRootRelpath moveSrcOpRootRelpath moveDstOpRootRelpath : RelPath) :
    Except Err WcState :=
  if ¬ env.lockOwned moveSrcOpRootRelpath then Except.error Err.notLocked
  else if ¬ env.lockOwned moveDstOpRootRelpath then Except.error Err.notLocked
  else
    match lookupNode s.nodes moveSrcOpRootRelpath 0 with
    | Option.none => Except.error Err.pathNotFound
    | some baseRow =>
      match lookupNode s.nodes moveDstOpRootRelpath
          (relpathDepth moveDstOpRootRelpath) with
      | Option.none => Except.error Err.pathNotFound
      | some dstRow =>
        let oldVersion : ConflictVersion :=
          { reposUrl := env.reposRootUrl, reposUuid := env.reposUuid,
            pathInRepos := dstRow.reposRelpath.getD [],
            pegRev := dstRow.revision, nodeKind := dstRow.kind }
        let newVersion : ConflictVersion :=
          { reposUrl := env.reposRootUrl, reposUuid := env.reposUuid,
            pathInRepos := baseRow.reposRelpath.getD [],
            pegRev := baseRow.revision, nodeKind := baseRow.kind }
        markTreeConflict s moveSrcRootRelpath oldVersion newVersion
          moveDstOpRootRelpath Operation.update dstRow.kind baseRow.kind
          dstRow.reposRelpath ConflictReason.movedAway ConflictAction.edit
          (some moveSrcOpRootRelpath)

/-- Modelled from the spec: `STMT_HAS_LAYER_BETWEEN` — is there a
layer at `p` strictly between `lo` and `hi`? -/
def hasLayerBetween (nodes : Nodes) (p : RelPath) (lo hi : Int) : Bool :=
  nodes.any fun e => e.1.1 = p ∧ lo < e.1.2 ∧ e.1.2 < hi

/-- The climb of `bump_moved_layer` to the source op-root (source
lines 2535-2536).  Fuel is the starting path depth. -/
def ancestorAtDepthN : Nat → RelPath → Int → RelPath
  | 0, p, _ => p
  | fuel + 1, p, d =>
    if relpathDepth p > d then ancestorAtDepthN fuel p.dropLast d else p

/-- `bump_moved_layer` (source lines 2480-2559): skip entangled moves,
check the depth (only for base moves), raise a move-edit conflict on
insufficient depth, otherwise — for a not-yet-done source whose
op-root carries no conflict — replace the destination layer and ask
the caller to recurse. -/
def bumpMovedLayer (env : Env) (s : WcState) (localRelpath : RelPath)
    (opDepth : Int) (srcRelpath : RelPath) (srcOpDepth : Int)
    (srcDepth : Depth) (dstRelpath : RelPath) : Except Err (Bool × WcState) :=
  if ¬ env.lockOwned localRelpath then Except.error Err.notLocked
  else if hasLayerBetween s.nodes localRelpath opDepth srcOpDepth then
    Except.ok (false, s)
  else
    let canBump :=
      if opDepth = 0 then depthSufficientToBump s.nodes srcRelpath opDepth srcDepth
      else Except.ok true
    match canBump with
    | Except.error e => Except.error e
    | Except.ok cb =>
      if ¬ cb then
        match bumpMarkTreeConflict env s srcRelpath srcRelpath dstRelpath with
        | Except.error e => Except.error e
        | Except.ok s1 => Except.ok (false, s1)
      else
        let srcRootRelpath := ancestorAtDepthN srcRelpath.length srcRelpath srcOpDepth
        if srcRelpath ∈ s.srcDone then Except.ok (false, s)
        else
          let s1 := { s with srcDone := srcRelpath :: s.srcDone }
          match lookupConflict s1 srcRootRelpath with
          | some _ => Except.ok (false, s1)
          | Option.none =>
            Except.ok (true, replaceMovedLayer s1 srcRelpath dstRelpath opDepth)

/-- `check_bump_layer` (source lines 2426-2475): decide whether a
candidate move is within the bump depth and what depth remains at its
source. -/
def checkBumpLayer (bumpRoot : RelPath) (bumpDepth : Depth)
    (srcRelpath : RelPath) (srcKind : Kind) : Except Err (Bool × Depth) :=
  let rel := skipAncestor bumpRoot srcRelpath
  let skip0 := rel.isNone
  if bumpDepth = Depth.infinity then Except.ok (skip0, bumpDepth)
  else if rel = some [] then Except.ok (skip0, bumpDepth)
  else
    match bumpDepth with
    | Depth.empty => Except.ok (true, bumpDepth)
    | Depth.files =>
      if srcKind ≠ Kind.file then Except.ok (true, bumpDepth)
      else Except.ok
        ((skip0 || rel.isNone || decide (1 < (rel.getD []).length)), Depth.empty)
    | Depth.immediates =>
      Except.ok
        ((skip0 || rel.isNone || decide (1 < (rel.getD []).length)), Depth.empty)
    | _ => Except.error Err.malfunction

/-- One candidate move (src, dst, src op-depth, kind) of the bump
scan. -/
structure MovedPairEntry where
  srcRelpath : RelPath
  dstRelpath : RelPath
  srcOpDepth : Int
  srcKind : Kind
  deriving Repr, DecidableEq

/-- Modelled from the spec: `STMT_SELECT_MOVED_PAIR3` — the candidate
moves discovered at or under the bump root at layers at or above
`opd` (spec §4.6: "for each candidate move discovered under the
updated root"). -/
def selectMovedPair3 (nodes : Nodes) (root : RelPath) (opd : Int) :
    List MovedPairEntry :=
  nodes.filterMap fun e =>
    match e.2.movedTo with
    | some m =>
      if isAncestor root e.1.1 ∧ opd ≤ e.1.2 then
        some { srcRelpath := e.1.1, dstRelpath := m, srcOpDepth := e.1.2,
               srcKind := e.2.kind }
      else Option.none
    | Option.none => Option.none

/-- The body of the `bump_moved_away` loop for one candidate move
(source lines 2600-2624): check the bump layer, bump it, and on a
successful replacement recurse into the destination. -/
def bumpOne (env : Env) (recurse : WcState → RelPath → Except Err WcState)
    (s : WcState) (bumpRoot : RelPath) (opDepth : Int) (depth : Depth)
    (entry : MovedPairEntry) : Except Err WcState :=
  match checkBumpLayer bumpRoot depth entry.srcRelpath entry.srcKind with
  | Except.error e => Except.error e
  | Except.ok (skip, srcDepth) =>
    if skip then Except.ok s
    else
      match bumpMovedLayer env s bumpRoot opDepth entry.srcRelpath
          entry.srcOpDepth srcDepth entry.dstRelpath with
      | Except.error e => Except.error e
      | Except.ok (doRecurse, s1) =>
        if doRecurse then recurse s1 entry.dstRelpath else Except.ok s1

/-- Sequential processing of the candidate-move list. -/
def bumpList (step : WcState → MovedPairEntry → Except Err WcState) :
    WcState → List MovedPairEntry → Except Err WcState
  | s, [] => Except.ok s
  | s, e :: es =>
    match step s e with
    | Except.error err => Except.error err
    | Except.ok s' => bumpList step s' es

/-- `bump_moved_away` (source lines 2568-2637): process every
candidate move under the root, recursing (with fresh fuel counter
decrement) into bumped destinations. -/
def bumpMovedAway (env : Env) :
    Nat → WcState → RelPath → Int → Depth → Except Err WcState
  | 0, _, _, _, _ => Except.error Err.recursionLimit
  | fuel + 1, s, localRelpath, opDepth, depth =>
    bumpList
      (fun st e => bumpOne env
        (fun st2 r => bumpMovedAway env fuel st2 r (relpathDepth r) depth)
        st localRelpath opDepth depth e)
      s (selectMovedPair3 s.nodes localRelpath opDepth)

/-! Fixtures used by the witness theorems: a tiny environment and a
handful of small node tables. -/

/-- A node row constructor for the fixtures. -/
def mkRow (st : Status) (k : Kind) (rev : Int) (rr : Option RelPath)
    (cks : Option Nat) : NodeRow :=
  { status := st, kind := k, revision := rev, reposRelpath := rr,
    checksum := cks, props := Option.none, movedTo := Option.none,
    movedHere := false }

/-- The empty working-copy state. -/
def emptyState : WcState :=
  { nodes := [], actualProps := [], conflicts := [], wq := [],
    moveList := [], conflictRoot := Option.none, srcDone := [], trace := [] }

/-- A fixture environment: everything locked, an empty disk, no local
modifications, a trivial property merger and a merger that reports a
clean merge. -/
def wEnv : Env :=
  { lockOwned := fun _ => true, diskKind := fun _ => Kind.none,
    fileModified := fun _ => false, localMods := fun _ => (false, false),
    mergeProps := fun _ actual _ =>
      { conflict := false, state := NotifyState.unchanged, newActual := actual },
    merge := fun _ _ _ _ _ =>
      { outcome := MergeOutcome.merged, textConflict := false },
    reposRootUrl := "u", reposUuid := "uu" }

/-- A fixture repository location at revision 5 under `a`. -/
def wOldVersion : ConflictVersion :=
  { reposUrl := "u", reposUuid := "uu", pathInRepos := ["a"], pegRev := 5,
    nodeKind := Kind.dir }

/-- The same location at revision 6. -/
def wNewVersion : ConflictVersion := { wOldVersion with pegRev := 6 }

/-- A fixture baton: a move whose destination root is `b`. -/
def wBaton : Baton :=
  { moveRootDstRelpath := ["b"], operation := Operation.update,
    oldVersion := wOldVersion, newVersion := wNewVersion }

/-- The node table of the C1 counterexample: source `a` (base layer,
revision 5) with subtree `a/c/g` new in the update, destination `b`
(the moved-here layer at op-depth 1) whose child `b/c` was locally
deleted (the base-deleted layer at op-depth 2). -/
def cexNodes : Nodes :=
  [ ((["a"], 0), mkRow Status.normal Kind.dir 5 (some ["a"]) Option.none),
    ((["a", "c"], 0), mkRow Status.normal Kind.dir 5 (some ["a", "c"]) Option.none),
    ((["a", "c", "g"], 0),
      mkRow Status.normal Kind.file 5 (some ["a", "c", "g"]) (some 77)),
    ((["b"], 1), mkRow Status.normal Kind.dir 5 (some ["a"]) Option.none),
    ((["b", "c"], 1), mkRow Status.normal Kind.dir 5 (some ["a", "c"]) Option.none),
    ((["b", "c"], 2), mkRow Status.baseDeleted Kind.dir (-1) Option.none Option.none) ]

/-- The C1 counterexample start state. -/
def cexState : WcState := { emptyState with nodes := cexNodes }

/-- The node table of the C1 deletion counterexample: the update
deletes `a/c/g`, while the destination still has `b/c/g` at the
moved-here layer (op-depth 1) shadowed by the local delete of `b/c`
(base-deleted rows at op-depth 2, including one for `b/c/g`). -/
def cexDelNodes : Nodes :=
  [ ((["a"], 0), mkRow Status.normal Kind.dir 5 (some ["a"]) Option.none),
    ((["a", "c"], 0), mkRow Status.normal Kind.dir 5 (some ["a", "c"]) Option.none),
    ((["b"], 1), mkRow Status.normal Kind.dir 5 (some ["a"]) Option.none),
    ((["b", "c"], 1), mkRow Status.normal Kind.dir 5 (some ["a", "c"]) Option.none),
    ((["b", "c", "g"], 1),
      mkRow Status.normal Kind.file 5 (some ["a", "c", "g"]) (some 77)),
    ((["b", "c"], 2), mkRow Status.baseDeleted Kind.dir (-1) Option.none Option.none),
    ((["b", "c", "g"], 2),
      mkRow Status.baseDeleted Kind.file (-1) Option.none Option.none) ]

/-- The C1 deletion counterexample start state. -/
def cexDelState : WcState := { emptyState with nodes := cexDelNodes }

/-- A stored update tree-conflict skeleton (reason deleted, action
delete) used by the C8 witness. -/
def wTcInfo : TreeConflictInfo :=
  { reason := ConflictReason.deleted, action := ConflictAction.delete,
    moveSrcOpRoot := Option.none }

/-- The skeleton around `wTcInfo`. -/
def wTcSkel : ConflictSkel :=
  { emptySkel with operation := Operation.update, treeConflict := some wTcInfo }

/-- A state carrying `wTcSkel` at `b/c`. -/
def wConflictState : WcState :=
  { emptyState with conflicts := [(["b", "c"], wTcSkel)] }

/-- A mixed-revision move source for the C9 witness: base rows at
revisions 5 and 6 under `v`, moved away to `w`. -/
def c9NodesMixed : Nodes :=
  [ ((["v"], 0), mkRow Status.normal Kind.dir 5 (some ["v"]) Option.none),
    ((["v", "x"], 0), mkRow Status.normal Kind.file 6 (some ["v", "x"]) Option.none),
    ((["v"], 1),
      { mkRow Status.baseDeleted Kind.dir (-1) Option.none Option.none with
          movedTo := some ["w"] }) ]

/-- A switched-subtree move source for the C9 witness: single
revision but `v/x` records a foreign repository path. -/
def c9NodesSwitched : Nodes :=
  [ ((["v"], 0), mkRow Status.normal Kind.dir 5 (some ["v"]) Option.none),
    ((["v", "x"], 0), mkRow Status.normal Kind.file 5 (some ["z", "x"]) Option.none),
    ((["v"], 1),
      { mkRow Status.baseDeleted Kind.dir (-1) Option.none Option.none with
          movedTo := some ["w"] }) ]

/-- `wEnv` with a locally modified working file. -/
def wEnvMod : Env := { wEnv with fileModified := fun _ => true }

/-- Old file version (pristine 1) for the C3 witness. -/
def wvOld : WorkingVersion :=
  { locationAndKind := wOldVersion, props := Option.none, checksum := some 1 }

/-- New file version (pristine 2) for the C3 witness. -/
def wvNew : WorkingVersion :=
  { locationAndKind := wNewVersion, props := Option.none, checksum := some 2 }

/-- New file version with the old pristine (unchanged checksum). -/
def wvNewSame : WorkingVersion := { wvNew with checksum := some 1 }

/-- The node table of the C6 witness: a delete at op-depth 2 covers
`b/c` and `b/c/g` above the destination layer at op-depth 1. -/
def c6Nodes : Nodes :=
  [ ((["b"], 1), mkRow Status.normal Kind.dir 5 (some ["a"]) Option.none),
    ((["b", "c"], 1), mkRow Status.normal Kind.dir 5 (some ["a", "c"]) Option.none),
    ((["b", "c", "g"], 1),
      mkRow Status.normal Kind.file 5 (some ["a", "c", "g"]) (some 7)),
    ((["b", "c"], 2), mkRow Status.baseDeleted Kind.dir (-1) Option.none Option.none),
    ((["b", "c", "g"], 2),
      mkRow Status.baseDeleted Kind.file (-1) Option.none Option.none) ]

/-- The C6 witness state. -/
def c6State : WcState := { emptyState with nodes := c6Nodes }

/-- The skeleton that `mark_tree_conflict` constructs when no
conflict was recorded before (source lines 675-715): the tree
conflict info, the operation, and the composed old/new versions. -/
def freshTreeConflictSkel (op : Operation) (oldV newV : ConflictVersion)
    (ok nk : Kind) (orr : Option RelPath) (nrr : RelPath)
    (reason : ConflictReason) (action : ConflictAction)
    (srcRoot : Option RelPath) : ConflictSkel :=
  { operation := op,
    treeConflict := some { reason := reason, action := action,
                           moveSrcOpRoot := srcRoot },
    textConflict := false, propConflict := false,
    oldVersion :=
      if reason ≠ ConflictReason.unversioned ∧ orr.isSome
      then some { oldV with pathInRepos := orr.getD [], nodeKind := ok }
      else Option.none,
    newVersion := some { newV with pathInRepos := nrr, nodeKind := nk } }

/-- The destination row deleted in the C4 witness. -/
def c4Row : NodeRow := mkRow Status.normal Kind.dir 5 (some ["a", "x"]) Option.none

/-- The C4 witness table: destination layer rows for `b`, `b/x` and
the child `b/x/y`. -/
def c4Nodes : Nodes :=
  [ ((["b"], 1), mkRow Status.normal Kind.dir 5 (some ["a"]) Option.none),
    ((["b", "x"], 1), c4Row),
    ((["b", "x", "y"], 1),
      mkRow Status.normal Kind.file 5 (some ["a", "x", "y"]) (some 3)) ]

/-- The C4 witness state. -/
def c4State : WcState := { emptyState with nodes := c4Nodes }

/-- `wEnv` with non-delete local modifications. -/
def wEnvModsEdit : Env := { wEnv with localMods := fun _ => (true, false) }

/-- `wEnv` with all-delete local modifications. -/
def wEnvModsDel : Env := { wEnv with localMods := fun _ => (true, true) }

/-- The base row of the C5 witness move source `r/a` (moved to
`r/b`). -/
def c5BaseRow : NodeRow :=
  mkRow Status.normal Kind.dir 5 (some ["r", "a"]) Option.none

/-- The destination row of the C5 witness at `r/b`, op-depth 2. -/
def c5DstRow : NodeRow :=
  { mkRow Status.normal Kind.dir 5 (some ["r", "a"]) Option.none with
      movedHere := true }

/-- The C5 witness table: a move `r/a` → `r/b` over a base tree with
the child `r/a/c`. -/
def c5Nodes : Nodes :=
  [ ((["r"], 0), mkRow Status.normal Kind.dir 5 (some ["r"]) Option.none),
    ((["r", "a"], 0), c5BaseRow),
    ((["r", "a", "c"], 0),
      mkRow Status.normal Kind.file 5 (some ["r", "a", "c"]) (some 9)),
    ((["r", "a"], 2),
      { mkRow Status.baseDeleted Kind.dir (-1) Option.none Option.none with
          movedTo := some ["r", "b"] }),
    ((["r", "b"], 2), c5DstRow) ]

/-- The C5 witness state. -/
def c5State : WcState := { emptyState with nodes := c5Nodes }

/-- The candidate move entry of the C5 witness. -/
def c5Entry : MovedPairEntry :=
  { srcRelpath := ["r", "a"], dstRelpath := ["r", "b"], srcOpDepth := 2,
    srcKind := Kind.dir }

/-- A file NodeInfo fixture whose props and checksum match itself. -/
def wFileInfo : NodeInfo :=
  { props := Option.none, checksum := some 7, children := [], kind := Kind.file }

/-- A directory NodeInfo fixture whose props and children match itself. -/
def wDirInfo : NodeInfo :=
  { props := Option.none, checksum := Option.none, children := ["x"],
    kind := Kind.dir }

section Theorems

/-! The claims' theorems follow; each is stated over the embedded
definitions above. -/

/-- C10: `get_info` reports a missing row, or a deleted-status row
without a repository location, as kind none with a null checksum,
null props and an empty child list; a deleted-status row that records
a repository location keeps its stored kind. -/
theorem C10_get_info (nodes : Nodes) (p : RelPath) (opd : Int) :
    (lookupNode nodes p opd = Option.none →
      getInfo nodes p opd =
        { props := Option.none, checksum := Option.none, children := [],
          kind := Kind.none })
    ∧ (∀ row, lookupNode nodes p opd = some row →
        row.status = Status.deleted → row.reposRelpath = Option.none →
        getInfo nodes p opd =
          { props := Option.none, checksum := Option.none, children := [],
            kind := Kind.none })
    ∧ (∀ row, lookupNode nodes p opd = some row →
        row.status = Status.deleted → row.reposRelpath.isSome →
        getInfo nodes p opd =
          { props := Option.none, checksum := Option.none, children := [],
            kind := row.kind }) := by
  refine ⟨fun h => ?_, fun row h hst hrr => ?_, fun row h hst hrr => ?_⟩
  · simp [getInfo, h]
  · simp [getInfo, h, hst, hrr]
  · have : row.reposRelpath.isNone = false := by
      cases hx : row.reposRelpath with
      | none => rw [hx] at hrr; simp at hrr
      | some v => simp
    simp [getInfo, h, hst, this]

/-- C10 witness: the three `get_info` cases at concrete inputs. -/
theorem C10_get_info_witness :
    (getInfo [] ["x"] 1 =
      { props := Option.none, checksum := Option.none, children := [],
        kind := Kind.none })
    ∧ (getInfo [((["x"], 1), mkRow Status.deleted Kind.file 5 Option.none Option.none)]
        ["x"] 1 =
      { props := Option.none, checksum := Option.none, children := [],
        kind := Kind.none })
    ∧ (getInfo [((["x"], 1), mkRow Status.deleted Kind.file 5 (some ["x"]) Option.none)]
        ["x"] 1 =
      { props := Option.none, checksum := Option.none, children := [],
        kind := Kind.file }) := by
  refine ⟨?_, ?_, ?_⟩
  · exact (C10_get_info [] ["x"] 1).1 rfl
  · exact (C10_get_info
      [((["x"], 1), mkRow Status.deleted Kind.file 5 Option.none Option.none)]
      ["x"] 1).2.1 (mkRow Status.deleted Kind.file 5 Option.none Option.none)
      rfl rfl rfl
  · exact (C10_get_info
      [((["x"], 1), mkRow Status.deleted Kind.file 5 (some ["x"]) Option.none)]
      ["x"] 1).2.2 (mkRow Status.deleted Kind.file 5 (some ["x"]) Option.none)
      rfl rfl rfl

/-- C7: a conflict check on a path strictly under the remembered
conflict root reports the path as conflicted and leaves the state —
notifications, conflicts and the remembered root included — entirely
unchanged, so one raised conflict suppresses nested raises on its
branch. -/
theorem C7_conflict_suppression (b : Baton) (s : WcState) (cr rest : RelPath)
    (p : RelPath) (oldKind newKind : Kind) (orr : Option RelPath)
    (action : ConflictAction)
    (h1 : s.conflictRoot = some cr)
    (h2 : skipAncestor cr p = some rest)
    (_h3 : rest ≠ []) :
    checkTreeConflict b s p oldKind newKind orr action = Except.ok (true, s) := by
  unfold checkTreeConflict
  rw [h1]
  simp [h2]

/-- C7 witness: with `b/c` remembered, checking `b/c/g` is a no-op
reporting a conflict. -/
theorem C7_conflict_suppression_witness :
    checkTreeConflict wBaton { emptyState with conflictRoot := some ["b", "c"] }
      ["b", "c", "g"] Kind.file Kind.file Option.none ConflictAction.edit
      = Except.ok (true, { emptyState with conflictRoot := some ["b", "c"] }) :=
  C7_conflict_suppression wBaton _ ["b", "c"] ["g"] ["b", "c", "g"]
    Kind.file Kind.file Option.none ConflictAction.edit rfl rfl (by decide)

/-- C8: marking a tree conflict over an existing update/switch tree
conflict is a no-op when reason, action and (for reason moved-away)
the recorded move source op-root all agree, and fails with the
obstructed-update error when any of them differ. -/
theorem C8_mark_idempotent (s : WcState) (localRelpath : RelPath)
    (oldVersion newVersion : ConflictVersion) (moveRootDstRelpath : RelPath)
    (operation : Operation) (oldKind newKind : Kind)
    (oldReposRelpath : Option RelPath) (reason : ConflictReason)
    (action : ConflictAction) (moveSrcOpRoot : Option RelPath)
    (nrr : RelPath) (existing : ConflictSkel) (tc : TreeConflictInfo)
    (hc : composedNewReposRelpath oldVersion newVersion moveRootDstRelpath
      localRelpath oldReposRelpath = some nrr)
    (h1 : lookupConflict s localRelpath = some existing)
    (h2 : existing.operation = Operation.update
      ∨ existing.operation = Operation.switch)
    (h3 : existing.treeConflict = some tc) :
    (reason = tc.reason → action = tc.action →
      (reason = ConflictReason.movedAway → moveSrcOpRoot = tc.moveSrcOpRoot) →
      markTreeConflict s localRelpath oldVersion newVersion moveRootDstRelpath
        operation oldKind newKind oldReposRelpath reason action moveSrcOpRoot
        = Except.ok s)
    ∧ ((reason ≠ tc.reason ∨ action ≠ tc.action
        ∨ (reason = ConflictReason.movedAway ∧ moveSrcOpRoot ≠ tc.moveSrcOpRoot)) →
      markTreeConflict s localRelpath oldVersion newVersion moveRootDstRelpath
        operation oldKind newKind oldReposRelpath reason action moveSrcOpRoot
        = Except.error Err.obstructedUpdate) := by
  have hop : ¬ (existing.operation ≠ Operation.update
      ∧ existing.operation ≠ Operation.switch) := by
    rcases h2 with h | h <;> simp [h]
  constructor
  · intro hr ha hsrc
    have hcond : ¬ (reason ≠ tc.reason ∨ action ≠ tc.action
        ∨ (reason = ConflictReason.movedAway
           ∧ moveSrcOpRoot ≠ tc.moveSrcOpRoot)) := by
      push_neg
      refine ⟨hr, ha, fun hm => hsrc hm⟩
    simp [markTreeConflict, hc, h1, h3, hop, hcond]
  · intro hcond
    simp [markTreeConflict, hc, h1, h3, hop, hcond]

/-- C8 witness: over an existing deleted/delete tree conflict, the
same skeleton is a no-op and a differing action fails with the
obstructed-update error. -/
theorem C8_mark_idempotent_witness :
    (markTreeConflict wConflictState ["b", "c"] wOldVersion wNewVersion ["b"]
        Operation.update Kind.dir Kind.none (some ["a", "c"])
        ConflictReason.deleted ConflictAction.delete Option.none
      = Except.ok wConflictState)
    ∧ (markTreeConflict wConflictState ["b", "c"] wOldVersion wNewVersion ["b"]
        Operation.update Kind.dir Kind.none (some ["a", "c"])
        ConflictReason.deleted ConflictAction.edit Option.none
      = Except.error Err.obstructedUpdate) := by
  constructor
  · exact (C8_mark_idempotent wConflictState ["b", "c"] wOldVersion wNewVersion
      ["b"] Operation.update Kind.dir Kind.none (some ["a", "c"])
      ConflictReason.deleted ConflictAction.delete Option.none
      ["a", "c"] wTcSkel wTcInfo rfl rfl (Or.inl rfl) rfl).1
      rfl rfl (by intro h; cases h)
  · exact (C8_mark_idempotent wConflictState ["b", "c"] wOldVersion wNewVersion
      ["b"] Operation.update Kind.dir Kind.none (some ["a", "c"])
      ConflictReason.deleted ConflictAction.edit Option.none
      ["a", "c"] wTcSkel wTcInfo rfl rfl (Or.inl rfl) rfl).2
      (Or.inr (Or.inl (by decide)))

/-- Helper: the scan loop fails with the mixed-revision error when
every row carries the expected repository path but some row carries a
different revision. -/
theorem suitableLoop_mixed (rev : Int) (rr root : RelPath) :
    ∀ rows : List (RelPath × NodeRow),
    (∀ pr ∈ rows, pr.2.reposRelpath
      = some (rr ++ ((skipAncestor root pr.1).getD []))) →
    (∃ pr ∈ rows, pr.2.revision ≠ rev) →
    suitableLoop rev rr root rows = Except.error Err.mixedRevisionSource := by
  intro rows
  induction rows with
  | nil =>
    intro _ hex
    rcases hex with ⟨pr, hm, _⟩
    exact absurd hm (List.not_mem_nil _)
  | cons hd tl ih =>
    intro hpaths hex
    obtain ⟨p, row⟩ := hd
    by_cases hrev : row.revision = rev
    · have hp := hpaths (p, row) (List.mem_cons_self _ _)
      simp only at hp
      have htl : ∃ pr ∈ tl, pr.2.revision ≠ rev := by
        rcases hex with ⟨pr, hm, hne⟩
        rcases List.mem_cons.mp hm with h | h
        · subst h; exact absurd hrev hne
        · exact ⟨pr, h, hne⟩
      show suitableLoop rev rr root ((p, row) :: tl)
        = Except.error Err.mixedRevisionSource
      simp only [suitableLoop]
      rw [if_neg (fun h => h hrev), if_neg (fun h => h hp)]
      exact ih (fun pr hm => hpaths pr (List.mem_cons_of_mem _ hm)) htl
    · show suitableLoop rev rr root ((p, row) :: tl)
        = Except.error Err.mixedRevisionSource
      simp only [suitableLoop]
      rw [if_pos hrev]

/-- Helper: the scan loop fails with the switched-subtree error when
every row carries the root's revision but some row carries an
unexpected repository path. -/
theorem suitableLoop_switched (rev : Int) (rr root : RelPath) :
    ∀ rows : List (RelPath × NodeRow),
    (∀ pr ∈ rows, pr.2.revision = rev) →
    (∃ pr ∈ rows, pr.2.reposRelpath
      ≠ some (rr ++ ((skipAncestor root pr.1).getD []))) →
    suitableLoop rev rr root rows = Except.error Err.switchedSubtree := by
  intro rows
  induction rows with
  | nil =>
    intro _ hex
    rcases hex with ⟨pr, hm, _⟩
    exact absurd hm (List.not_mem_nil _)
  | cons hd tl ih =>
    intro hrevs hex
    obtain ⟨p, row⟩ := hd
    have hrev := hrevs (p, row) (List.mem_cons_self _ _)
    simp only at hrev
    by_cases hp : row.reposRelpath = some (rr ++ ((skipAncestor root p).getD []))
    · have htl : ∃ pr ∈ tl, pr.2.reposRelpath
          ≠ some (rr ++ ((skipAncestor root pr.1).getD [])) := by
        rcases hex with ⟨pr, hm, hne⟩
        rcases List.mem_cons.mp hm with h | h
        · subst h; exact absurd hp hne
        · exact ⟨pr, h, hne⟩
      show suitableLoop rev rr root ((p, row) :: tl)
        = Except.error Err.switchedSubtree
      simp only [suitableLoop]
      rw [if_neg (fun h => h hrev), if_neg (fun h => h hp)]
      exact ih (fun pr hm => hrevs pr (List.mem_cons_of_mem _ hm)) htl
    · show suitableLoop rev rr root ((p, row) :: tl)
        = Except.error Err.switchedSubtree
      simp only [suitableLoop]
      rw [if_neg (fun h => h hrev), if_pos hp]

/-- C9: a move source op-root at op-depth zero whose base rows span
two revisions makes resolution fail with the mixed-revision error
(likewise a switched subtree with the switched-subtree error) — the
failure happens inside `suitable_for_move`, before the notification
list is created and before any edit event, and the error aborts the
transaction, so no effect survives. -/
theorem C9_unsuitable_source (env : Env) (fuel : Nat) (s : WcState)
    (victim : RelPath) (operation : Operation) (srcOpRoot : RelPath)
    (oldV newV : ConflictVersion) (dstRoot : RelPath) (base : NodeRow)
    (h1 : (opDepthMovedTo s.nodes victim (relpathDepth srcOpRoot - 1)).dstOpRoot
      = some dstRoot)
    (h2 : env.lockOwned dstRoot = true)
    (h3 : highestWorkingBelow s.nodes srcOpRoot (relpathDepth srcOpRoot)
      = some 0)
    (h4 : lookupNode s.nodes victim 0 = some base) :
    ((∀ pr ∈ selectSubtreeAtDepth s.nodes victim 0, pr.2.reposRelpath
        = some (base.reposRelpath.getD [] ++ ((skipAncestor victim pr.1).getD [])))
      → (∃ pr ∈ selectSubtreeAtDepth s.nodes victim 0,
          pr.2.revision ≠ base.revision)
      → updateMovedAwayConflictVictim env fuel s victim operation srcOpRoot
          oldV newV = Except.error Err.mixedRevisionSource)
    ∧ ((∀ pr ∈ selectSubtreeAtDepth s.nodes victim 0,
          pr.2.revision = base.revision)
      → (∃ pr ∈ selectSubtreeAtDepth s.nodes victim 0, pr.2.reposRelpath
          ≠ some (base.reposRelpath.getD []
              ++ ((skipAncestor victim pr.1).getD [])))
      → updateMovedAwayConflictVictim env fuel s victim operation srcOpRoot
          oldV newV = Except.error Err.switchedSubtree) := by
  constructor
  · intro hpaths hex
    have hs : suitableForMove s victim = Except.error Err.mixedRevisionSource := by
      unfold suitableForMove
      rw [h4]
      exact suitableLoop_mixed _ _ _ _ hpaths hex
    simp [updateMovedAwayConflictVictim, h1, h2, h3, hs]
  · intro hrevs hex
    have hs : suitableForMove s victim = Except.error Err.switchedSubtree := by
      unfold suitableForMove
      rw [h4]
      exact suitableLoop_switched _ _ _ _ hrevs hex
    simp [updateMovedAwayConflictVictim, h1, h2, h3, hs]

/-- C9 witness: the mixed-revision source fails with the
mixed-revision error, the switched source with the switched-subtree
error. -/
theorem C9_unsuitable_source_witness :
    (updateMovedAwayConflictVictim wEnv 5 { emptyState with nodes := c9NodesMixed }
        ["v"] Operation.update ["v"] wOldVersion wNewVersion
      = Except.error Err.mixedRevisionSource)
    ∧ (updateMovedAwayConflictVictim wEnv 5
        { emptyState with nodes := c9NodesSwitched }
        ["v"] Operation.update ["v"] wOldVersion wNewVersion
      = Except.error Err.switchedSubtree) := by
  constructor
  · exact (C9_unsuitable_source wEnv 5 { emptyState with nodes := c9NodesMixed }
      ["v"] Operation.update ["v"] wOldVersion wNewVersion ["w"]
      (mkRow Status.normal Kind.dir 5 (some ["v"]) Option.none)
      rfl rfl rfl rfl).1 (by decide) (by decide)
  · exact (C9_unsuitable_source wEnv 5 { emptyState with nodes := c9NodesSwitched }
      ["v"] Operation.update ["v"] wOldVersion wNewVersion ["w"]
      (mkRow Status.normal Kind.dir 5 (some ["v"]) Option.none)
      rfl rfl rfl rfl).2 (by decide) (by decide)

/-- Helper: writing actual props leaves the spools, trace and
conflicts alone. -/
theorem setActualProps_fields (s : WcState) (p : RelPath) (o : Option Props) :
    (setActualProps s p o).moveList = s.moveList
    ∧ (setActualProps s p o).wq = s.wq
    ∧ (setActualProps s p o).trace = s.trace
    ∧ (setActualProps s p o).conflicts = s.conflicts := by
  cases o <;> exact ⟨rfl, rfl, rfl, rfl⟩

/-- Helper: the property-merge step leaves the spools and trace
alone. -/
theorem updateWorkingProps_fields (env : Env) (s : WcState) (p : RelPath)
    (oldV newV : WorkingVersion) :
    (updateWorkingProps env s p oldV newV).state.moveList = s.moveList
    ∧ (updateWorkingProps env s p oldV newV).state.wq = s.wq
    ∧ (updateWorkingProps env s p oldV newV).state.trace = s.trace := by
  unfold updateWorkingProps
  refine ⟨(setActualProps_fields _ _ _).1, (setActualProps_fields _ _ _).2.1,
    (setActualProps_fields _ _ _).2.2.1⟩

/-- C3: `update_working_file` on a file whose checksum changed either
enqueues an install-file work item (locally unmodified; content state
changed) or invokes the three-way merger with the old pristine, the
new pristine and the working file and enqueues its work item (content
state conflicted exactly when the merge outcome is a conflict, else
merged); with an unchanged checksum the notification carries content
state unchanged.  In every case exactly one update notification is
spooled, with the property state of the property merge. -/
theorem C3_update_working_file (env : Env) (b : Baton) (s : WcState)
    (relpath : RelPath) (reposRelpath : Option RelPath) (operation : Operation)
    (oldV newV : WorkingVersion) :
    (checksumMatchB newV.checksum oldV.checksum = false →
      env.fileModified relpath = false →
      (updateWorkingFile env b s relpath reposRelpath operation oldV newV).moveList
        = s.moveList ++
          [{ path := relpath, action := NotifyAction.updateUpdate,
             kind := Kind.file, contentState := NotifyState.changed,
             propState := (updateWorkingProps env s relpath oldV newV).propState }]
      ∧ WorkItem.fileInstall relpath Option.none true
        ∈ (updateWorkingFile env b s relpath reposRelpath operation oldV newV).wq)
    ∧ (checksumMatchB newV.checksum oldV.checksum = false →
      env.fileModified relpath = true →
      EditEvent.mergeInvoked oldV.checksum newV.checksum relpath
        ∈ (updateWorkingFile env b s relpath reposRelpath operation oldV newV).trace
      ∧ WorkItem.mergeItem relpath
        ∈ (updateWorkingFile env b s relpath reposRelpath operation oldV newV).wq
      ∧ (updateWorkingFile env b s relpath reposRelpath operation oldV newV).moveList
        = s.moveList ++
          [{ path := relpath, action := NotifyAction.updateUpdate,
             kind := Kind.file,
             contentState :=
               if (env.merge oldV.checksum newV.checksum relpath
                     (updateWorkingProps env s relpath oldV newV).actualProps
                     (updateWorkingProps env s relpath oldV newV).propChanges).outcome
                   = MergeOutcome.conflicted
               then NotifyState.conflicted else NotifyState.merged,
             propState := (updateWorkingProps env s relpath oldV newV).propState }])
    ∧ (checksumMatchB newV.checksum oldV.checksum = true →
      (updateWorkingFile env b s relpath reposRelpath operation oldV newV).moveList
        = s.moveList ++
          [{ path := relpath, action := NotifyAction.updateUpdate,
             kind := Kind.file, contentState := NotifyState.unchanged,
             propState := (updateWorkingProps env s relpath oldV newV).propState }]) := by
  have hml := (updateWorkingProps_fields env s relpath oldV newV).1
  have hwq := (updateWorkingProps_fields env s relpath oldV newV).2.1
  have htr := (updateWorkingProps_fields env s relpath oldV newV).2.2
  refine ⟨fun hm hf => ?_, fun hm hf => ?_, fun hm => ?_⟩
  · cases hc : (updateWorkingProps env s relpath oldV newV).conflictSkel <;>
      simp [updateWorkingFile, hm, hf, hc, wqAdd, updateMoveListAdd, hml, hwq]
  · cases hc : (updateWorkingProps env s relpath oldV newV).conflictSkel <;>
      cases ht : (env.merge oldV.checksum newV.checksum relpath
        (updateWorkingProps env s relpath oldV newV).actualProps
        (updateWorkingProps env s relpath oldV newV).propChanges).textConflict <;>
      simp [updateWorkingFile, hm, hf, hc, ht, wqAdd, updateMoveListAdd,
        pushTrace, hml, hwq, htr]
  · cases hc : (updateWorkingProps env s relpath oldV newV).conflictSkel <;>
      simp [updateWorkingFile, hm, hc, wqAdd, updateMoveListAdd, hml, hwq]

/-- C3 witness: the three content cases at concrete inputs — install
plus content changed when unmodified, merger invocation plus content
merged when modified, content unchanged when the checksum matches. -/
theorem C3_update_working_file_witness :
    ((updateWorkingFile wEnv wBaton emptyState ["f"] Option.none
        Operation.update wvOld wvNew).moveList
      = [{ path := ["f"], action := NotifyAction.updateUpdate, kind := Kind.file,
           contentState := NotifyState.changed,
           propState := NotifyState.unchanged }]
      ∧ WorkItem.fileInstall ["f"] Option.none true
        ∈ (updateWorkingFile wEnv wBaton emptyState ["f"] Option.none
            Operation.update wvOld wvNew).wq)
    ∧ (EditEvent.mergeInvoked (some 1) (some 2) ["f"]
        ∈ (updateWorkingFile wEnvMod wBaton emptyState ["f"] Option.none
            Operation.update wvOld wvNew).trace
      ∧ WorkItem.mergeItem ["f"]
        ∈ (updateWorkingFile wEnvMod wBaton emptyState ["f"] Option.none
            Operation.update wvOld wvNew).wq
      ∧ (updateWorkingFile wEnvMod wBaton emptyState ["f"] Option.none
            Operation.update wvOld wvNew).moveList
        = [{ path := ["f"], action := NotifyAction.updateUpdate, kind := Kind.file,
             contentState := NotifyState.merged,
             propState := NotifyState.unchanged }])
    ∧ ((updateWorkingFile wEnv wBaton emptyState ["f"] Option.none
          Operation.update wvOld wvNewSame).moveList
        = [{ path := ["f"], action := NotifyAction.updateUpdate, kind := Kind.file,
             contentState := NotifyState.unchanged,
             propState := NotifyState.unchanged }]) := by
  refine ⟨?_, ?_, ?_⟩
  · exact (C3_update_working_file wEnv wBaton emptyState ["f"] Option.none
      Operation.update wvOld wvNew).1 rfl rfl
  · exact (C3_update_working_file wEnvMod wBaton emptyState ["f"] Option.none
      Operation.update wvOld wvNew).2.1 rfl rfl
  · exact (C3_update_working_file wEnv wBaton emptyState ["f"] Option.none
      Operation.update wvOld wvNewSame).2.2 rfl

/-- Helper: with enough fuel the widening loop stops exactly at path
depth `opd`. -/
theorem widenLoopN_depth :
    ∀ (fuel : Nat) (p : RelPath) (opd : Int) (ok nk : Kind)
      (orr : Option RelPath) (act : ConflictAction),
    0 ≤ opd → opd ≤ relpathDepth p → relpathDepth p ≤ opd + (fuel : Nat) →
    relpathDepth (widenLoopN fuel p opd ok nk orr act).1 = opd := by
  intro fuel
  induction fuel with
  | zero =>
    intro p opd ok nk orr act _ h2 h3
    simp only [widenLoopN]
    omega
  | succ n ih =>
    intro p opd ok nk orr act h1 h2 h3
    by_cases h : relpathDepth p > opd
    · have hp : p ≠ [] := by
        intro he
        rw [he] at h
        simp [relpathDepth] at h
        omega
      have hlen : (p.dropLast.length : Int) = (p.length : Int) - 1 := by
        rw [List.length_dropLast]
        have : 1 ≤ p.length := List.length_pos.mpr hp
        omega
      simp only [widenLoopN, if_pos h]
      apply ih
      · exact h1
      · simp only [relpathDepth] at h ⊢
        omega
      · simp only [relpathDepth] at h3 ⊢
        rw [hlen]
        push_cast at h3 ⊢
        omega
    · simp only [widenLoopN, if_neg h]
      simp only [relpathDepth] at h h2 ⊢
      omega

/-- C6: when the conflict check finds a working layer strictly above
the destination op-depth, the conflict is anchored at the path
obtained by climbing to that layer's op-root (the widening loop), its
reason is moved-away exactly when that anchor has a recorded move
destination above the destination op-depth and deleted otherwise, the
anchor becomes the remembered conflict root, and with a well-formed
layer (op-depth between 0 and the path depth) the anchor's path depth
equals the layer's op-depth. -/
theorem C6_conflict_anchor (b : Baton) (s : WcState) (relpath : RelPath)
    (oldKind newKind : Kind) (orr : Option RelPath) (action : ConflictAction)
    (opd : Int) (root : RelPath) (ok' nk' : Kind) (orr' : Option RelPath)
    (act' : ConflictAction) (mv : MovedToInfo)
    (h0 : s.conflictRoot = Option.none)
    (h1 : lowestWorkingAbove s.nodes relpath (relpathDepth b.moveRootDstRelpath)
      = some opd)
    (hw : widenLoopN relpath.length relpath opd oldKind newKind orr action
      = (root, ok', nk', orr', act'))
    (hmv : opDepthMovedTo s.nodes root (relpathDepth b.moveRootDstRelpath) = mv) :
    (checkTreeConflict b s relpath oldKind newKind orr action =
      match markTreeConflict s root b.oldVersion b.newVersion
          b.moveRootDstRelpath b.operation ok' nk' orr'
          (if mv.movedDst.isSome then ConflictReason.movedAway
           else ConflictReason.deleted) act' mv.srcOpRoot with
      | Except.error e => Except.error e
      | Except.ok s1 => Except.ok (true, { s1 with conflictRoot := some root }))
    ∧ (0 ≤ opd → opd ≤ relpathDepth relpath → relpathDepth root = opd) := by
  constructor
  · simp only [checkTreeConflict, h0, checkTreeConflictBody, h1, hw, hmv]
  · intro ha hb
    have hd := widenLoopN_depth relpath.length relpath opd oldKind newKind orr
      action ha hb (by simp [relpathDepth]; omega)
    rw [hw] at hd
    exact hd

/-- C6 witness: checking `b/c/g` under a delete layer at op-depth 2
anchors the conflict at `b/c` (path depth 2) with reason deleted. -/
theorem C6_conflict_anchor_witness :
    (checkTreeConflict wBaton c6State ["b", "c", "g"] Kind.file Kind.file
        (some ["a", "c", "g"]) ConflictAction.edit =
      match markTreeConflict c6State ["b", "c"] wOldVersion wNewVersion ["b"]
          Operation.update Kind.dir Kind.dir (some ["a", "c"])
          ConflictReason.deleted ConflictAction.edit Option.none with
      | Except.error e => Except.error e
      | Except.ok s1 => Except.ok (true, { s1 with conflictRoot := some ["b", "c"] }))
    ∧ (0 ≤ (2 : Int) → (2 : Int) ≤ relpathDepth ["b", "c", "g"] →
        relpathDepth ["b", "c"] = 2) :=
  C6_conflict_anchor wBaton c6State ["b", "c", "g"] Kind.file Kind.file
    (some ["a", "c", "g"]) ConflictAction.edit 2 ["b", "c"] Kind.dir Kind.dir
    (some ["a", "c"]) ConflictAction.edit
    { movedDst := Option.none, dstOpRoot := Option.none,
      srcRoot := Option.none, srcOpRoot := Option.none }
    rfl (by decide) (by decide) (by decide)

/-- Helper: a conflict check with no remembered root and no working
layer above the destination op-depth reports no conflict and leaves
the state unchanged. -/
theorem checkTreeConflict_clean (b : Baton) (s : WcState) (p : RelPath)
    (k1 k2 : Kind) (orr : Option RelPath) (act : ConflictAction)
    (h0 : s.conflictRoot = Option.none)
    (h1 : lowestWorkingAbove s.nodes p (relpathDepth b.moveRootDstRelpath)
      = Option.none) :
    checkTreeConflict b s p k1 k2 orr act = Except.ok (false, s) := by
  simp only [checkTreeConflict, h0, checkTreeConflictBody, h1]

/-- Helper: marking a fresh tree conflict (no previously recorded
conflict) stores the composed skeleton and spools the tree-conflict
notification. -/
theorem markTreeConflict_fresh (s : WcState) (p : RelPath)
    (oldV newV : ConflictVersion) (mrd : RelPath) (op : Operation)
    (ok nk : Kind) (orr : Option RelPath) (reason : ConflictReason)
    (action : ConflictAction) (srcRoot : Option RelPath) (nrr : RelPath)
    (hc : composedNewReposRelpath oldV newV mrd p orr = some nrr)
    (h1 : lookupConflict s p = Option.none)
    (hop : op = Operation.update ∨ op = Operation.switch) :
    markTreeConflict s p oldV newV mrd op ok nk orr reason action srcRoot
      = Except.ok (updateMoveListAdd
          { s with conflicts := insertConflict s.conflicts p (freshTreeConflictSkel op oldV newV ok nk orr nrr reason action srcRoot) }
          p NotifyAction.treeConflict nk NotifyState.inapplicable
          NotifyState.inapplicable) := by
  rcases hop with h | h <;> subst h <;>
    simp [markTreeConflict, hc, h1, emptySkel, freshTreeConflictSkel]

/-- Helper: deleting the working rows above `opd` keeps the row at
(`root`, `opd`) itself. -/
theorem lookupNode_deleteAbove (root : RelPath) (opd : Int) :
    ∀ nodes : Nodes,
    lookupNode (deleteWorkingOpDepthAbove nodes root opd) root opd
      = lookupNode nodes root opd := by
  intro nodes
  induction nodes with
  | nil => rfl
  | cons hd tl ih =>
    unfold deleteWorkingOpDepthAbove at ih ⊢
    rw [List.filter_cons]
    by_cases hp : isAncestor root hd.1.1 = true ∧ opd < hd.1.2
    · have hne : ¬ (hd.1.1 = root ∧ hd.1.2 = opd) := by
        rintro ⟨_, h2⟩
        rw [h2] at hp
        exact absurd hp.2 (lt_irrefl _)
      have : (decide ¬ (isAncestor root hd.1.1 = true ∧ opd < hd.1.2)) = false := by
        simp [hp]
      rw [this]
      simp only [cond_false, if_neg, Bool.false_eq_true, if_false]
      rw [ih]
      unfold lookupNode
      rw [List.find?_cons]
      have : (decide (hd.1.1 = root ∧ hd.1.2 = opd)) = false := by simp [hne]
      rw [this]
    · have : (decide ¬ (isAncestor root hd.1.1 = true ∧ opd < hd.1.2)) = true := by
        simp only [decide_eq_true_eq]
        exact hp
      rw [this]
      simp only [if_true]
      unfold lookupNode
      rw [List.find?_cons, List.find?_cons]
      cases hk : (decide (hd.1.1 = root ∧ hd.1.2 = opd))
      · exact ih
      · rfl

/-- C4: a delete on a non-shadowed, non-conflicted destination node
with local modifications.  If the modifications are not all deletes
the destination-layer rows of the subtree are reparented to the
node's own path depth (a copy) and a tree conflict with reason edited
is raised, with no removal work items; if they are all deletes the
working rows above the destination op-depth are deleted, a tree
conflict with reason deleted is raised, and removal work items for
every child and then the node itself are still enqueued. -/
theorem C4_delete_local_mods (env : Env) (b : Baton) (s : WcState)
    (relpath : RelPath) (row : NodeRow) (allDel : Bool) (nrr : RelPath)
    (hrow : lookupNode s.nodes relpath (relpathDepth b.moveRootDstRelpath)
      = some row)
    (h0 : s.conflictRoot = Option.none)
    (h1 : lowestWorkingAbove s.nodes relpath (relpathDepth b.moveRootDstRelpath)
      = Option.none)
    (hmods : env.localMods relpath = (true, allDel))
    (hconf : lookupConflict s relpath = Option.none)
    (hop : b.operation = Operation.update ∨ b.operation = Operation.switch)
    (hcomp : composedNewReposRelpath b.oldVersion b.newVersion
      b.moveRootDstRelpath relpath row.reposRelpath = some nrr) :
    (allDel = false → ∃ s',
      tcEditorDelete env b s relpath false = Except.ok s'
      ∧ s'.nodes = updateOpDepthRecursive s.nodes relpath
          (relpathDepth b.moveRootDstRelpath) (relpathDepth relpath)
      ∧ (lookupConflict s' relpath).bind (fun c => c.treeConflict)
          = some { reason := ConflictReason.edited,
                   action := ConflictAction.delete,
                   moveSrcOpRoot := Option.none }
      ∧ s'.wq = s.wq)
    ∧ (allDel = true → ∃ s',
      tcEditorDelete env b s relpath false = Except.ok s'
      ∧ s'.nodes = deleteWorkingOpDepthAbove s.nodes relpath
          (relpathDepth b.moveRootDstRelpath)
      ∧ (lookupConflict s' relpath).bind (fun c => c.treeConflict)
          = some { reason := ConflictReason.deleted,
                   action := ConflictAction.delete,
                   moveSrcOpRoot := Option.none }
      ∧ s'.wq = s.wq
          ++ (selectChildrenOpDepth
                (deleteWorkingOpDepthAbove s.nodes relpath
                  (relpathDepth b.moveRootDstRelpath))
                relpath (relpathDepth b.moveRootDstRelpath)).map
              (fun c => if c.2 = Kind.dir then WorkItem.dirRemove c.1
                        else WorkItem.fileRemove c.1)
          ++ [if row.kind = Kind.dir then WorkItem.dirRemove relpath
              else WorkItem.fileRemove relpath]) := by
  have hchk : checkTreeConflict b (pushTrace s (EditEvent.deleteEv relpath false))
      relpath row.kind Kind.unknown row.reposRelpath ConflictAction.delete
      = Except.ok (false, pushTrace s (EditEvent.deleteEv relpath false)) :=
    checkTreeConflict_clean b _ relpath row.kind Kind.unknown row.reposRelpath
      ConflictAction.delete h0 h1
  simp only [pushTrace] at hchk
  constructor
  · intro hAD
    subst hAD
    simp only [tcEditorDelete, pushTrace]
    simp only [hrow, hchk]
    simp [hmods]
    rw [markTreeConflict_fresh]
    rotate_left
    · exact nrr
    · exact hcomp
    · exact hconf
    · exact hop
    refine ⟨_, rfl, rfl, ?_, rfl⟩
    simp [lookupConflict, insertConflict, freshTreeConflictSkel,
      updateMoveListAdd, List.find?]
  · intro hAD
    subst hAD
    simp only [tcEditorDelete, pushTrace]
    simp only [hrow, hchk]
    simp [hmods]
    rw [markTreeConflict_fresh]
    rotate_left
    · exact nrr
    · exact hcomp
    · exact hconf
    · exact hop
    simp only [updateMoveListAdd, wqAdd]
    rw [show ∀ nd, lookupNode (deleteWorkingOpDepthAbove nd relpath (relpathDepth b.moveRootDstRelpath)) relpath (relpathDepth b.moveRootDstRelpath) = lookupNode nd relpath (relpathDepth b.moveRootDstRelpath) from fun nd => lookupNode_deleteAbove relpath _ nd]
    simp [hrow]
    simp [lookupConflict, insertConflict, freshTreeConflictSkel, List.find?]

/-- C4 witness: deleting `b/x` with non-delete local modifications
reparents the layer and raises an edited conflict with no work items;
with all-delete modifications it deletes the rows above op-depth 1,
raises a deleted conflict and still enqueues the removals. -/
theorem C4_delete_local_mods_witness :
    (∃ s', tcEditorDelete wEnvModsEdit wBaton c4State ["b", "x"] false
        = Except.ok s'
      ∧ s'.nodes = updateOpDepthRecursive c4State.nodes ["b", "x"]
          (relpathDepth wBaton.moveRootDstRelpath) (relpathDepth ["b", "x"])
      ∧ (lookupConflict s' ["b", "x"]).bind (fun c => c.treeConflict)
          = some { reason := ConflictReason.edited,
                   action := ConflictAction.delete,
                   moveSrcOpRoot := Option.none }
      ∧ s'.wq = c4State.wq)
    ∧ (∃ s', tcEditorDelete wEnvModsDel wBaton c4State ["b", "x"] false
        = Except.ok s'
      ∧ s'.nodes = deleteWorkingOpDepthAbove c4State.nodes ["b", "x"]
          (relpathDepth wBaton.moveRootDstRelpath)
      ∧ (lookupConflict s' ["b", "x"]).bind (fun c => c.treeConflict)
          = some { reason := ConflictReason.deleted,
                   action := ConflictAction.delete,
                   moveSrcOpRoot := Option.none }
      ∧ s'.wq = c4State.wq
          ++ (selectChildrenOpDepth
                (deleteWorkingOpDepthAbove c4State.nodes ["b", "x"]
                  (relpathDepth wBaton.moveRootDstRelpath))
                ["b", "x"] (relpathDepth wBaton.moveRootDstRelpath)).map
              (fun c => if c.2 = Kind.dir then WorkItem.dirRemove c.1
                        else WorkItem.fileRemove c.1)
          ++ [if c4Row.kind = Kind.dir then WorkItem.dirRemove ["b", "x"]
              else WorkItem.fileRemove ["b", "x"]]) := by
  constructor
  · exact (C4_delete_local_mods wEnvModsEdit wBaton c4State ["b", "x"] c4Row
      false ["a", "x"] rfl rfl rfl rfl rfl (Or.inl rfl) rfl).1 rfl
  · exact (C4_delete_local_mods wEnvModsDel wBaton c4State ["b", "x"] c4Row
      true ["a", "x"] rfl rfl rfl rfl rfl (Or.inl rfl) rfl).2 rfl

/-- Helper: a path is an ancestor of itself with empty remainder. -/
theorem skipAncestor_refl : ∀ p : RelPath, skipAncestor p p = some [] := by
  intro p
  induction p with
  | nil => rfl
  | cons a as ih => simp [skipAncestor, ih]

/-- C5: bumping a candidate move whose bump root is at op-depth zero
and whose requested depth is insufficient raises a moved-away/edit
tree conflict on the move source and performs no layer rewrite; with
sufficient depth and no pre-existing conflict on the source op-root
the destination layer is replaced (only the NODES table changes — no
conflict and no notification is recorded) and the recurse flag asks
the caller to bump the moves below the destination, which the loop
body does by re-entering the bump scan at the destination. -/
theorem C5_bump (env : Env) (s : WcState) (localRelpath : RelPath)
    (opDepth : Int) (srcRelpath : RelPath) (srcOpDepth : Int)
    (srcDepth : Depth) (dstRelpath : RelPath) (baseRow dstRow : NodeRow)
    (drr : RelPath) :
    (env.lockOwned localRelpath = true →
     env.lockOwned srcRelpath = true →
     env.lockOwned dstRelpath = true →
     hasLayerBetween s.nodes localRelpath opDepth srcOpDepth = false →
     opDepth = 0 →
     depthSufficientToBump s.nodes srcRelpath 0 srcDepth = Except.ok false →
     lookupNode s.nodes srcRelpath 0 = some baseRow →
     lookupNode s.nodes dstRelpath (relpathDepth dstRelpath) = some dstRow →
     dstRow.reposRelpath = some drr →
     lookupConflict s srcRelpath = Option.none →
     ∃ s', bumpMovedLayer env s localRelpath opDepth srcRelpath srcOpDepth
         srcDepth dstRelpath = Except.ok (false, s')
       ∧ s'.nodes = s.nodes
       ∧ (lookupConflict s' srcRelpath).bind (fun c => c.treeConflict)
           = some { reason := ConflictReason.movedAway,
                    action := ConflictAction.edit,
                    moveSrcOpRoot := some srcRelpath }
       ∧ s'.moveList = s.moveList ++
           [{ path := srcRelpath, action := NotifyAction.treeConflict,
              kind := baseRow.kind, contentState := NotifyState.inapplicable,
              propState := NotifyState.inapplicable }])
    ∧ (env.lockOwned localRelpath = true →
     hasLayerBetween s.nodes localRelpath opDepth srcOpDepth = false →
     (if opDepth = 0 then depthSufficientToBump s.nodes srcRelpath opDepth
        srcDepth else Except.ok true) = Except.ok true →
     srcRelpath ∉ s.srcDone →
     lookupConflict s (ancestorAtDepthN srcRelpath.length srcRelpath srcOpDepth)
       = Option.none →
     bumpMovedLayer env s localRelpath opDepth srcRelpath srcOpDepth srcDepth
         dstRelpath
       = Except.ok (true, replaceMovedLayer
           { s with srcDone := srcRelpath :: s.srcDone } srcRelpath dstRelpath
           opDepth)
       ∧ (replaceMovedLayer { s with srcDone := srcRelpath :: s.srcDone }
           srcRelpath dstRelpath opDepth).moveList = s.moveList
       ∧ (replaceMovedLayer { s with srcDone := srcRelpath :: s.srcDone }
           srcRelpath dstRelpath opDepth).conflicts = s.conflicts)
    ∧ (∀ (recurse : WcState → RelPath → Except Err WcState) (st s1 : WcState)
         (bumpRoot : RelPath) (opd : Int) (depth : Depth)
         (entry : MovedPairEntry) (srcDepth1 : Depth),
       checkBumpLayer bumpRoot depth entry.srcRelpath entry.srcKind
         = Except.ok (false, srcDepth1) →
       bumpMovedLayer env st bumpRoot opd entry.srcRelpath entry.srcOpDepth
         srcDepth1 entry.dstRelpath = Except.ok (true, s1) →
       bumpOne env recurse st bumpRoot opd depth entry
         = recurse s1 entry.dstRelpath) := by
  refine ⟨?_, ?_, ?_⟩
  · intro hlock1 hlock2 hlock3 hlayer hop0 hdep hbase hdst hdrr hconf
    subst hop0
    simp only [bumpMovedLayer, hlock1, hlayer, Bool.not_true, Bool.false_eq_true,
      ite_false, ite_true, if_true, if_false]
    simp only [hdep]
    simp only [bumpMarkTreeConflict, hlock2, hlock3, hbase, hdst, Bool.not_true,
      Bool.false_eq_true, ite_false]
    rw [markTreeConflict_fresh]
    rotate_left
    · exact baseRow.reposRelpath.getD [] ++ []
    · simp [composedNewReposRelpath, hdrr, skipAncestor_refl]
    · exact hconf
    · exact Or.inl rfl
    refine ⟨_, rfl, rfl, ?_, rfl⟩
    simp [lookupConflict, insertConflict, freshTreeConflictSkel,
      updateMoveListAdd, List.find?]
  · intro hlock1 hlayer hcan hdone hnoconf
    refine ⟨?_, rfl, rfl⟩
    simp only [bumpMovedLayer, hlock1, hlayer, Bool.not_true, Bool.false_eq_true,
      ite_false, ite_true, if_true, if_false]
    simp only [hcan, Bool.not_true, Bool.false_eq_true, ite_false]
    rw [if_neg hdone]
    rw [show lookupConflict { s with srcDone := srcRelpath :: s.srcDone }
      (ancestorAtDepthN srcRelpath.length srcRelpath srcOpDepth)
      = Option.none from hnoconf]
    simp
  · intro recurse st s1 bumpRoot opd depth entry srcDepth1 hchk hbump
    simp only [bumpOne, hchk, hbump, Bool.false_eq_true, ite_false, ite_true,
      if_true]

/-- C5 witness: bumping `r/a` → `r/b` at depth empty (the source has
a child) raises the moved-away/edit conflict and rewrites nothing; at
depth infinity the destination layer is replaced with no conflict and
recursion is requested, and the loop body then re-enters the scan at
the destination. -/
theorem C5_bump_witness :
    (∃ s', bumpMovedLayer wEnv c5State ["r"] 0 ["r", "a"] 2 Depth.empty
        ["r", "b"] = Except.ok (false, s')
      ∧ s'.nodes = c5State.nodes
      ∧ (lookupConflict s' ["r", "a"]).bind (fun c => c.treeConflict)
          = some { reason := ConflictReason.movedAway,
                   action := ConflictAction.edit,
                   moveSrcOpRoot := some ["r", "a"] }
      ∧ s'.moveList = c5State.moveList ++
          [{ path := ["r", "a"], action := NotifyAction.treeConflict,
             kind := c5BaseRow.kind, contentState := NotifyState.inapplicable,
             propState := NotifyState.inapplicable }])
    ∧ (bumpMovedLayer wEnv c5State ["r"] 0 ["r", "a"] 2 Depth.infinity
        ["r", "b"]
      = Except.ok (true, replaceMovedLayer
          { c5State with srcDone := ["r", "a"] :: c5State.srcDone }
          ["r", "a"] ["r", "b"] 0))
    ∧ (bumpOne wEnv (fun st2 _ => Except.ok st2) c5State ["r"] 0
        Depth.infinity c5Entry
      = Except.ok (replaceMovedLayer
          { c5State with srcDone := ["r", "a"] :: c5State.srcDone }
          ["r", "a"] ["r", "b"] 0)) := by
  refine ⟨?_, ?_, ?_⟩
  · exact (C5_bump wEnv c5State ["r"] 0 ["r", "a"] 2 Depth.empty ["r", "b"]
      c5BaseRow c5DstRow ["r", "a"]).1 rfl rfl rfl rfl rfl rfl rfl rfl rfl rfl
  · exact ((C5_bump wEnv c5State ["r"] 0 ["r", "a"] 2 Depth.infinity ["r", "b"]
      c5BaseRow c5DstRow ["r", "a"]).2.1 rfl rfl rfl (by decide) rfl).1
  · exact (C5_bump wEnv c5State ["r"] 0 ["r", "a"] 2 Depth.infinity ["r", "b"]
      c5BaseRow c5DstRow ["r", "a"]).2.2 (fun st2 _ => Except.ok st2) c5State
      (replaceMovedLayer { c5State with srcDone := ["r", "a"] :: c5State.srcDone }
        ["r", "a"] ["r", "b"] 0)
      ["r"] 0 Depth.infinity c5Entry Depth.infinity rfl
      (((C5_bump wEnv c5State ["r"] 0 ["r", "a"] 2 Depth.infinity ["r", "b"]
        c5BaseRow c5DstRow ["r", "a"]).2.1 rfl rfl rfl (by decide) rfl).1)

/-- Helper: membership in the merged name list is membership on
either side (given sufficient fuel). -/
theorem mergeNamesN_mem :
    ∀ (n : Nat) (ss ds : List String), ss.length + ds.length ≤ n →
    ∀ nm, (nm ∈ mergeNamesN n ss ds ↔ (nm ∈ ss ∨ nm ∈ ds)) := by
  intro n
  induction n with
  | zero =>
    intro ss ds hle nm
    match ss, ds with
    | [], [] => simp [mergeNamesN]
    | s0 :: ss', ds => simp at hle
    | [], d :: ds' => simp at hle
  | succ n ih =>
    intro ss ds hle nm
    match ss, ds with
    | [], ds => simp [mergeNamesN]
    | s0 :: ss', [] => simp [mergeNamesN]
    | s0 :: ss', d :: ds' =>
      have hle' : ss'.length + ds'.length + 1 ≤ n := by
        simp at hle
        omega
      by_cases he : s0 = d
      · subst he
        simp only [mergeNamesN, if_true, eq_self_iff_true, List.mem_cons,
          ih ss' ds' (by omega) nm]
        tauto
      · by_cases hlt : strLtB s0 d = true
        · simp only [mergeNamesN, if_neg he, if_pos hlt, List.mem_cons,
            ih ss' (d :: ds') (by simp; omega) nm]
          tauto
        · simp only [mergeNamesN, if_neg he, if_neg hlt, List.mem_cons,
            ih (s0 :: ss') ds' (by simp; omega) nm]
          tauto

/-- Helper: with sufficient fuel the two-cursor merge walk equals the
single walk over the merged name list. -/
theorem walkChildren_eq_visit (sc : WcState → String → Bool)
    (visit : WcState → String → Bool → Except Err WcState) :
    ∀ (n : Nat) (ss ds : List String) (s : WcState) (sh : Bool),
    ss.length + ds.length ≤ n →
    walkChildrenN sc visit n s sh ss ds
      = visitNameList sc visit s sh (mergeNamesN n ss ds) := by
  intro n
  induction n with
  | zero =>
    intro ss ds s sh hle
    match ss, ds with
    | [], [] => rfl
    | s0 :: ss', ds => simp at hle
    | [], d :: ds' => simp at hle
  | succ n ih =>
    intro ss ds s sh hle
    match ss, ds with
    | [], [] => rfl
    | [], d :: ds' =>
      have hL : walkChildrenN sc visit (n + 1) s sh [] (d :: ds')
          = (match visit s d (if sh then true else sc s d) with
             | Except.error e => Except.error e
             | Except.ok s' => walkChildrenN sc visit n s' sh [] ds') := rfl
      have hR : mergeNamesN (n + 1) [] (d :: ds') = d :: ds' := rfl
      rw [hL, hR]
      simp only [visitNameList]
      cases hv : visit s d (if sh then true else sc s d) with
      | error e => rfl
      | ok s2 =>
        show walkChildrenN sc visit n s2 sh [] ds'
            = visitNameList sc visit s2 sh ds'
        rw [ih [] ds' s2 sh (by simp at hle ⊢; omega)]
        have hm : mergeNamesN n [] ds' = ds' := by
          cases n <;> cases ds' <;> rfl
        rw [hm]
    | s0 :: ss', [] =>
      have hL : walkChildrenN sc visit (n + 1) s sh (s0 :: ss') []
          = (match visit s s0 (if sh then true else sc s s0) with
             | Except.error e => Except.error e
             | Except.ok s' => walkChildrenN sc visit n s' sh ss' []) := rfl
      have hR : mergeNamesN (n + 1) (s0 :: ss') [] = s0 :: ss' := rfl
      rw [hL, hR]
      simp only [visitNameList]
      cases hv : visit s s0 (if sh then true else sc s s0) with
      | error e => rfl
      | ok s2 =>
        show walkChildrenN sc visit n s2 sh ss' []
            = visitNameList sc visit s2 sh ss'
        rw [ih ss' [] s2 sh (by simp at hle ⊢; omega)]
        have hm : mergeNamesN n ss' [] = ss' := by
          cases n <;> cases ss' <;> rfl
        rw [hm]
    | s0 :: ss', d :: ds' =>
      have hle' : ss'.length + ds'.length + 1 ≤ n := by
        simp at hle
        omega
      have hstep : walkChildrenN sc visit (n + 1) s sh (s0 :: ss') (d :: ds')
          = (let step : String × List String × List String :=
               if s0 = d then (s0, ss', ds')
               else if strLtB s0 d then (s0, ss', d :: ds')
               else (d, s0 :: ss', ds');
             match visit s step.1 (if sh then true else sc s step.1) with
             | Except.error e => Except.error e
             | Except.ok s' =>
                 walkChildrenN sc visit n s' sh step.2.1 step.2.2) := rfl
      have hmrg : mergeNamesN (n + 1) (s0 :: ss') (d :: ds')
          = (if s0 = d then s0 :: mergeNamesN n ss' ds'
             else if strLtB s0 d then s0 :: mergeNamesN n ss' (d :: ds')
             else d :: mergeNamesN n (s0 :: ss') ds') := rfl
      rw [hstep, hmrg]
      by_cases he : s0 = d
      · rw [if_pos he, if_pos he]
        show (match visit s s0 (if sh then true else sc s s0) with
              | Except.error e => Except.error e
              | Except.ok s' => walkChildrenN sc visit n s' sh ss' ds')
            = visitNameList sc visit s sh (s0 :: mergeNamesN n ss' ds')
        simp only [visitNameList]
        cases hv : visit s s0 (if sh then true else sc s s0) with
        | error e => rfl
        | ok s2 =>
          show walkChildrenN sc visit n s2 sh ss' ds'
              = visitNameList sc visit s2 sh (mergeNamesN n ss' ds')
          exact ih ss' ds' s2 sh (by omega)
      · by_cases hlt : strLtB s0 d = true
        · rw [if_neg he, if_pos hlt, if_neg he, if_pos hlt]
          show (match visit s s0 (if sh then true else sc s s0) with
                | Except.error e => Except.error e
                | Except.ok s' => walkChildrenN sc visit n s' sh ss' (d :: ds'))
              = visitNameList sc visit s sh (s0 :: mergeNamesN n ss' (d :: ds'))
          simp only [visitNameList]
          cases hv : visit s s0 (if sh then true else sc s s0) with
          | error e => rfl
          | ok s2 =>
            show walkChildrenN sc visit n s2 sh ss' (d :: ds')
                = visitNameList sc visit s2 sh (mergeNamesN n ss' (d :: ds'))
            exact ih ss' (d :: ds') s2 sh (by simp; omega)
        · rw [if_neg he, if_neg hlt, if_neg he, if_neg hlt]
          show (match visit s d (if sh then true else sc s d) with
                | Except.error e => Except.error e
                | Except.ok s' => walkChildrenN sc visit n s' sh (s0 :: ss') ds')
              = visitNameList sc visit s sh (d :: mergeNamesN n (s0 :: ss') ds')
          simp only [visitNameList]
          cases hv : visit s d (if sh then true else sc s d) with
          | error e => rfl
          | ok s2 =>
            show walkChildrenN sc visit n s2 sh (s0 :: ss') ds'
                = visitNameList sc visit s2 sh (mergeNamesN n (s0 :: ss') ds')
            exact ih (s0 :: ss') ds' s2 sh (by simp; omega)

/-- C2: for every pair of nodes visited by the walk, loaded at the
source op-depth and the destination op-depth: (1) when the source kind
is none, or the destination kind is not none and differs from the
source kind, the receiver delete is driven and the destination layer
row retracted, (2) otherwise the delete step is a no-op, (3,4) when
the kinds agree, no alter is emitted — the state is returned
unchanged — unless the props differ, the file checksum differs, or
the child-name lists differ, (5) for a source directory the walk
factors through the single walk over the merged child-name lists,
recursing with the child shadowed flag equal to the parent flag OR
the shadow check on the destination child, and (6) the merged list
holds exactly the names present on either side. -/
theorem C2_walk_cases (env : Env) (b : Baton) :
    (∀ (s : WcState) (dst : RelPath) (sh : Bool) (sk dk : Kind),
      (sk = Kind.none ∨ (dk ≠ Kind.none ∧ sk ≠ dk)) →
      walkDeletePart env b s dst sh sk dk
        = (match tcEditorDelete env b s dst sh with
           | Except.error e => Except.error e
           | Except.ok s1 => Except.ok (deleteMoveLeaf b s1 dst)))
    ∧ (∀ (s : WcState) (dst : RelPath) (sh : Bool) (sk dk : Kind),
      ¬(sk = Kind.none ∨ (dk ≠ Kind.none ∧ sk ≠ dk)) →
      walkDeletePart env b s dst sh sk dk = Except.ok s)
    ∧ (∀ (s : WcState) (dst : RelPath) (sh : Bool) (si di : NodeInfo),
      (si.kind = Kind.file ∨ si.kind = Kind.symlink) → si.kind = di.kind →
      propsMatchB si.props di.props = true →
      checksumMatchB si.checksum di.checksum = true →
      walkAddAlterPart env b s dst sh si di = Except.ok s)
    ∧ (∀ (s : WcState) (dst : RelPath) (sh : Bool) (si di : NodeInfo),
      si.kind = Kind.dir → di.kind = Kind.dir →
      propsMatchB si.props di.props = true →
      childrenMatchB si.children di.children = true →
      walkAddAlterPart env b s dst sh si di = Except.ok s)
    ∧ (∀ (fuel : Nat) (s : WcState) (src dst : RelPath) (sOpd : Int) (sh : Bool),
      (getInfo s.nodes src sOpd).kind = Kind.dir →
      updateMovedAwayNode env b (fuel + 1) s src dst sOpd sh
        = (match walkDeletePart env b (pushTrace s (EditEvent.visit src dst sh))
              dst sh (getInfo s.nodes src sOpd).kind
              (getInfo s.nodes dst (relpathDepth b.moveRootDstRelpath)).kind with
           | Except.error e => Except.error e
           | Except.ok s1 =>
             match walkAddAlterPart env b s1 dst sh (getInfo s.nodes src sOpd)
                 (getInfo s.nodes dst (relpathDepth b.moveRootDstRelpath)) with
             | Except.error e => Except.error e
             | Except.ok s2 =>
               visitNameList
                 (fun st n => checkNodeShadowed b st (dst ++ [n]))
                 (fun st n csh => updateMovedAwayNode env b fuel st
                   (src ++ [n]) (dst ++ [n]) sOpd csh)
                 s2 sh
                 (mergeNames (getInfo s.nodes src sOpd).children
                   (getInfo s.nodes dst (relpathDepth b.moveRootDstRelpath)).children)))
    ∧ (∀ (cs ds : List String) (nm : String),
      nm ∈ mergeNames cs ds ↔ (nm ∈ cs ∨ nm ∈ ds)) := by
  refine ⟨?_, ?_, ?_, ?_, ?_, ?_⟩
  · intro s dst sh sk dk h
    simp only [walkDeletePart, if_pos h]
  · intro s dst sh sk dk h
    simp only [walkDeletePart, if_neg h]
  · intro s dst sh si di hk hkd hp hc
    rcases hk with hk | hk <;>
      simp [walkAddAlterPart, hk, hkd.symm, hp, hc]
  · intro s dst sh si di hk hkd hp hc
    simp [walkAddAlterPart, hk, hkd, hp, hc]
  · intro fuel s src dst sOpd sh hdir
    have hun : updateMovedAwayNode env b (fuel + 1) s src dst sOpd sh
        = (match walkDeletePart env b (pushTrace s (EditEvent.visit src dst sh))
              dst sh (getInfo s.nodes src sOpd).kind
              (getInfo s.nodes dst (relpathDepth b.moveRootDstRelpath)).kind with
           | Except.error e => Except.error e
           | Except.ok s1 =>
             match walkAddAlterPart env b s1 dst sh (getInfo s.nodes src sOpd)
                 (getInfo s.nodes dst (relpathDepth b.moveRootDstRelpath)) with
             | Except.error e => Except.error e
             | Except.ok s2 =>
               if (getInfo s.nodes src sOpd).kind = Kind.dir then
                 walkChildrenN
                   (fun st n => checkNodeShadowed b st (dst ++ [n]))
                   (fun st n csh => updateMovedAwayNode env b fuel st
                     (src ++ [n]) (dst ++ [n]) sOpd csh)
                   ((getInfo s.nodes src sOpd).children.length
                     + (getInfo s.nodes dst
                         (relpathDepth b.moveRootDstRelpath)).children.length)
                   s2 sh (getInfo s.nodes src sOpd).children
                   (getInfo s.nodes dst (relpathDepth b.moveRootDstRelpath)).children
               else Except.ok s2) := rfl
    rw [hun]
    cases h1 : walkDeletePart env b (pushTrace s (EditEvent.visit src dst sh))
        dst sh (getInfo s.nodes src sOpd).kind
        (getInfo s.nodes dst (relpathDepth b.moveRootDstRelpath)).kind with
    | error e => rfl
    | ok s1 =>
      show (match walkAddAlterPart env b s1 dst sh (getInfo s.nodes src sOpd)
             (getInfo s.nodes dst (relpathDepth b.moveRootDstRelpath)) with
           | Except.error e => Except.error e
           | Except.ok s2 =>
             if (getInfo s.nodes src sOpd).kind = Kind.dir then
               walkChildrenN
                 (fun st n => checkNodeShadowed b st (dst ++ [n]))
                 (fun st n csh => updateMovedAwayNode env b fuel st
                   (src ++ [n]) (dst ++ [n]) sOpd csh)
                 ((getInfo s.nodes src sOpd).children.length
                   + (getInfo s.nodes dst
                       (relpathDepth b.moveRootDstRelpath)).children.length)
                 s2 sh (getInfo s.nodes src sOpd).children
                 (getInfo s.nodes dst (relpathDepth b.moveRootDstRelpath)).children
             else Except.ok s2)
          = (match walkAddAlterPart env b s1 dst sh (getInfo s.nodes src sOpd)
               (getInfo s.nodes dst (relpathDepth b.moveRootDstRelpath)) with
            | Except.error e => Except.error e
            | Except.ok s2 =>
              visitNameList
                (fun st n => checkNodeShadowed b st (dst ++ [n]))
                (fun st n csh => updateMovedAwayNode env b fuel st
                  (src ++ [n]) (dst ++ [n]) sOpd csh)
                s2 sh
                (mergeNames (getInfo s.nodes src sOpd).children
                  (getInfo s.nodes dst (relpathDepth b.moveRootDstRelpath)).children))
      cases h2 : walkAddAlterPart env b s1 dst sh (getInfo s.nodes src sOpd)
          (getInfo s.nodes dst (relpathDepth b.moveRootDstRelpath)) with
      | error e => rfl
      | ok s2 =>
        show (if (getInfo s.nodes src sOpd).kind = Kind.dir then
            walkChildrenN
              (fun st n => checkNodeShadowed b st (dst ++ [n]))
              (fun st n csh => updateMovedAwayNode env b fuel st
                (src ++ [n]) (dst ++ [n]) sOpd csh)
              ((getInfo s.nodes src sOpd).children.length
                + (getInfo s.nodes dst
                    (relpathDepth b.moveRootDstRelpath)).children.length)
              s2 sh (getInfo s.nodes src sOpd).children
              (getInfo s.nodes dst (relpathDepth b.moveRootDstRelpath)).children
          else Except.ok s2) = _
        rw [if_pos hdir]
        exact walkChildren_eq_visit _ _ _ _ _ s2 sh (le_refl _)
  · intro cs ds nm
    exact mergeNamesN_mem (cs.length + ds.length) cs ds (le_refl _) nm

/-- C2 witness: each clause instantiated at concrete inputs. -/
theorem C2_walk_cases_witness :
    (walkDeletePart wEnv wBaton emptyState ["d"] false Kind.none Kind.none
      = (match tcEditorDelete wEnv wBaton emptyState ["d"] false with
         | Except.error e => Except.error e
         | Except.ok s1 => Except.ok (deleteMoveLeaf wBaton s1 ["d"])))
    ∧ walkDeletePart wEnv wBaton emptyState ["d"] false Kind.file Kind.file
        = Except.ok emptyState
    ∧ walkAddAlterPart wEnv wBaton emptyState ["d"] false wFileInfo wFileInfo
        = Except.ok emptyState
    ∧ walkAddAlterPart wEnv wBaton emptyState ["d"] false wDirInfo wDirInfo
        = Except.ok emptyState
    ∧ updateMovedAwayNode wEnv wBaton 1 cexState ["a"] ["b"] 0 false
        = (match walkDeletePart wEnv wBaton
              (pushTrace cexState (EditEvent.visit ["a"] ["b"] false))
              ["b"] false (getInfo cexState.nodes ["a"] 0).kind
              (getInfo cexState.nodes ["b"]
                (relpathDepth wBaton.moveRootDstRelpath)).kind with
           | Except.error e => Except.error e
           | Except.ok s1 =>
             match walkAddAlterPart wEnv wBaton s1 ["b"] false
                 (getInfo cexState.nodes ["a"] 0)
                 (getInfo cexState.nodes ["b"]
                   (relpathDepth wBaton.moveRootDstRelpath)) with
             | Except.error e => Except.error e
             | Except.ok s2 =>
               visitNameList
                 (fun st n => checkNodeShadowed wBaton st (["b"] ++ [n]))
                 (fun st n csh => updateMovedAwayNode wEnv wBaton 0 st
                   (["a"] ++ [n]) (["b"] ++ [n]) 0 csh)
                 s2 false
                 (mergeNames (getInfo cexState.nodes ["a"] 0).children
                   (getInfo cexState.nodes ["b"]
                     (relpathDepth wBaton.moveRootDstRelpath)).children))
    ∧ ("a" ∈ mergeNames ["a"] ["b"] ↔
        ("a" ∈ (["a"] : List String) ∨ "a" ∈ (["b"] : List String))) := by
  refine ⟨?_, ?_, ?_, ?_, ?_, ?_⟩
  · exact (C2_walk_cases wEnv wBaton).1 emptyState ["d"] false Kind.none Kind.none
      (Or.inl rfl)
  · exact (C2_walk_cases wEnv wBaton).2.1 emptyState ["d"] false Kind.file
      Kind.file (by decide)
  · exact (C2_walk_cases wEnv wBaton).2.2.1 emptyState ["d"] false wFileInfo
      wFileInfo (Or.inl rfl) rfl (by decide) (by decide)
  · exact (C2_walk_cases wEnv wBaton).2.2.2.1 emptyState ["d"] false wDirInfo
      wDirInfo rfl rfl (by decide) (by decide)
  · exact (C2_walk_cases wEnv wBaton).2.2.2.2.1 0 cexState ["a"] ["b"] 0 false
      (by decide)
  · exact (C2_walk_cases wEnv wBaton).2.2.2.2.2 ["a"] ["b"] "a"

/-- Helper: inserting a row makes it the one found at its key. -/
theorem lookupNode_insert_self (nodes : Nodes) (p : RelPath) (d : Int)
    (r : NodeRow) : lookupNode (insertNode nodes p d r) p d = some r := by
  simp [lookupNode, insertNode, List.find?]

/-- Helper: filtering out one key leaves the search for another key
unchanged. -/
theorem find_keyed_filter (p' : RelPath) (d' : Int) (p : RelPath) (d : Int)
    (h : ¬ (p = p' ∧ d = d')) :
    ∀ (l : Nodes),
    (l.filter fun e => ¬ (e.1.1 = p' ∧ e.1.2 = d')).find?
        (fun e => e.1.1 = p ∧ e.1.2 = d)
      = l.find? (fun e => e.1.1 = p ∧ e.1.2 = d) := by
  intro l
  rw [List.find?_filter]
  congr 1
  funext a
  by_cases ha1 : a.1.1 = p
  · by_cases ha2 : a.1.2 = d
    · have h2 : ¬ (a.1.1 = p' ∧ a.1.2 = d') := by
        rintro ⟨u, v⟩
        exact h ⟨ha1.symm.trans u, ha2.symm.trans v⟩
      simp [ha1, ha2, h2]
      exact not_and_or.mp h
    · simp [ha2]
  · simp [ha1]

/-- Helper: inserting at one key leaves the lookup at another key
unchanged. -/
theorem lookupNode_insert_ne (nodes : Nodes) (p : RelPath) (d : Int)
    (p' : RelPath) (d' : Int) (r : NodeRow) (h : ¬ (p = p' ∧ d = d')) :
    lookupNode (insertNode nodes p' d' r) p d = lookupNode nodes p d := by
  have hh : ¬ (p' = p ∧ d' = d) := by
    rintro ⟨h1, h2⟩
    exact h ⟨h1.symm, h2.symm⟩
  unfold lookupNode
  congr 1
  unfold insertNode
  rw [List.find?_cons_of_neg _ (by simpa using hh)]
  exact find_keyed_filter p' d' p d h nodes

/-- Helper: skipping an ancestor off its own extension leaves the
suffix. -/
theorem skipAncestor_append : ∀ (a s : RelPath), skipAncestor a (a ++ s) = some s := by
  intro a
  induction a with
  | nil => intro s; rfl
  | cons x xs ih => intro s; simp [skipAncestor, ih]

/-- Helper: a successful ancestor skip decomposes the path. -/
theorem skipAncestor_eq_append :
    ∀ (a p s : RelPath), skipAncestor a p = some s → p = a ++ s := by
  intro a
  induction a with
  | nil =>
    intro p s h
    simp [skipAncestor] at h
    simp [h]
  | cons x xs ih =>
    intro p s h
    match p with
    | [] => simp [skipAncestor] at h
    | y :: ys =>
      simp only [skipAncestor] at h
      by_cases hxy : x = y
      · rw [if_pos hxy] at h
        have := ih ys s h
        simp [hxy, this]
      · rw [if_neg hxy] at h
        exact absurd h (by simp)

/-- Helper: a path extension is inside the ancestor's subtree. -/
theorem isAncestor_append (a s : RelPath) : isAncestor a (a ++ s) = true := by
  simp [isAncestor, skipAncestor_append]

/-- Helper: the minimum of a list is an element of it. -/
theorem listMin_aux_mem :
    ∀ (xs : List Int) (acc : Option Int) (m : Int),
    xs.foldl (fun acc x => match acc with
      | Option.none => some x
      | some m => some (min m x)) acc = some m →
    (acc = some m ∨ m ∈ xs) := by
  intro xs
  induction xs with
  | nil => intro acc m h; exact Or.inl h
  | cons x rest ih =>
    intro acc m h
    rcases ih _ m h with h1 | h1
    · cases acc with
      | none =>
        simp at h1
        simp [h1]
      | some a =>
        simp at h1
        rcases min_choice a x with hm | hm
        · rw [hm] at h1
          exact Or.inl (by simp [h1])
        · rw [hm] at h1
          simp [h1]
    · exact Or.inr (List.mem_cons_of_mem x h1)

/-- Helper: the minimum of a list bounds every element and the seed. -/
theorem listMin_aux_le :
    ∀ (xs : List Int) (acc : Option Int) (m : Int),
    xs.foldl (fun acc x => match acc with
      | Option.none => some x
      | some m => some (min m x)) acc = some m →
    ((∀ a, acc = some a → m ≤ a) ∧ ∀ x ∈ xs, m ≤ x) := by
  intro xs
  induction xs with
  | nil =>
    intro acc m h
    have h' : acc = some m := h
    refine ⟨fun a ha => ?_, by simp⟩
    rw [h'] at ha
    injection ha with ha
    omega
  | cons x rest ih =>
    intro acc m h
    obtain ⟨hacc, hrest⟩ := ih _ m h
    have hx : m ≤ x := by
      cases acc with
      | none => exact (hacc x rfl).trans (le_refl x)
      | some a =>
        have := hacc (min a x) rfl
        exact this.trans (min_le_right a x)
    refine ⟨?_, ?_⟩
    · intro a ha
      cases acc with
      | none => simp at ha
      | some b =>
        have h2 := (hacc (min b x) rfl).trans (min_le_left b x)
        injection ha with ha
        exact ha ▸ h2
    · intro y hy
      rcases List.mem_cons.mp hy with hy | hy
      · subst hy; exact hx
      · exact hrest y hy

/-- Helper: the fold behind listMin never falls back to none. -/
theorem listMin_aux_none :
    ∀ (xs : List Int) (acc : Option Int),
    xs.foldl (fun acc x => match acc with
      | Option.none => some x
      | some m => some (min m x)) acc = Option.none →
    (acc = Option.none ∧ xs = []) := by
  intro xs
  induction xs with
  | nil => intro acc h; exact ⟨h, rfl⟩
  | cons x rest ih =>
    intro acc h
    obtain ⟨h1, _⟩ := ih _ h
    cases acc <;> simp at h1

/-- Helper: a found row's op-depth is among the path's op-depths. -/
theorem lookupNode_mem_opDepths (nodes : Nodes) (q : RelPath) (e : Int)
    (r : NodeRow) (h : lookupNode nodes q e = some r) :
    e ∈ opDepthsAt nodes q := by
  simp only [lookupNode, Option.map_eq_some'] at h
  obtain ⟨entry, hfind, _⟩ := h
  have hmem := List.mem_of_find?_eq_some hfind
  have hpred := List.find?_some hfind
  simp only [decide_eq_true_eq] at hpred
  simp only [opDepthsAt, List.mem_filterMap]
  exact ⟨entry, hmem, by simp [hpred.1, hpred.2]⟩

/-- Helper: `replaceMovedLayer` is the fold of `replaceStep` over the
selected source layer. -/
theorem replaceMovedLayer_nodes (s : WcState) (src dst : RelPath) (sOpd : Int) :
    (replaceMovedLayer s src dst sOpd).nodes
      = (selectSubtreeAtDepth s.nodes src sOpd).foldl
          (replaceStep src dst sOpd) s.nodes := rfl

/-- Helper: a computed list minimum is an element of the list. -/
theorem listMin_some_mem (xs : List Int) (m : Int) (h : listMin xs = some m) :
    m ∈ xs := by
  simp only [listMin] at h
  rcases listMin_aux_mem xs Option.none m h with h1 | h1
  · exact absurd h1 (by simp)
  · exact h1

/-- Helper: a computed list minimum bounds every element. -/
theorem listMin_le_of_mem (xs : List Int) (m : Int) (h : listMin xs = some m) :
    ∀ x ∈ xs, m ≤ x := by
  simp only [listMin] at h
  exact (listMin_aux_le xs Option.none m h).2

/-- Helper: only the empty list has no minimum. -/
theorem listMin_none_eq (xs : List Int) (h : listMin xs = Option.none) :
    xs = [] := by
  simp only [listMin] at h
  exact (listMin_aux_none xs Option.none h).2

/-- Helper: a found lowest working op-depth is above the bound and
minimal among the working op-depths. -/
theorem lowestWorkingAbove_some (nodes : Nodes) (pth : RelPath) (opd pd : Int)
    (h : lowestWorkingAbove nodes pth opd = some pd) :
    opd < pd ∧ ∀ x ∈ opDepthsAt nodes pth, opd < x → pd ≤ x := by
  simp only [lowestWorkingAbove] at h
  have hmem := listMin_some_mem _ _ h
  have hle := listMin_le_of_mem _ _ h
  simp only [List.mem_filter, decide_eq_true_eq] at hmem
  refine ⟨hmem.2, fun x hx hox => hle x ?_⟩
  exact List.mem_filter.mpr ⟨hx, by simpa using hox⟩

/-- Helper: no lowest working op-depth means no working op-depth at
all above the bound. -/
theorem lowestWorkingAbove_none (nodes : Nodes) (pth : RelPath) (opd : Int)
    (h : lowestWorkingAbove nodes pth opd = Option.none) :
    ∀ x ∈ opDepthsAt nodes pth, ¬ opd < x := by
  simp only [lowestWorkingAbove] at h
  have hempty := listMin_none_eq _ h
  intro x hx hlt
  have hm : x ∈ (opDepthsAt nodes pth).filter (fun d => decide (opd < d)) :=
    List.mem_filter.mpr ⟨hx, by simpa using hlt⟩
  rw [hempty] at hm
  exact List.not_mem_nil x hm

/-- Helper: `extendParentDelete` either leaves the table alone or
inserts a base-deleted shadow row at an op-depth above the bound
where no row existed. -/
theorem extendParentDelete_cases (nodes : Nodes) (pth : RelPath) (kind : Kind)
    (opd : Int) :
    extendParentDelete nodes pth kind opd = nodes
    ∨ ∃ pd, opd < pd ∧ lookupNode nodes pth pd = Option.none
        ∧ extendParentDelete nodes pth kind opd
            = insertNode nodes pth pd (baseDeletedRow kind) := by
  rcases hpar : lowestWorkingAbove nodes (relpathDirname pth) opd with _ | parentOpd
  · left
    simp [extendParentDelete, hpar]
  · obtain ⟨hlt, _⟩ := lowestWorkingAbove_some _ _ _ _ hpar
    rcases hown : lowestWorkingAbove nodes pth opd with _ | ownOpd
    · right
      refine ⟨parentOpd, hlt, ?_, by simp [extendParentDelete, hpar, hown]⟩
      cases hl : lookupNode nodes pth parentOpd with
      | none => rfl
      | some r =>
        exact absurd hlt
          (lowestWorkingAbove_none _ _ _ hown parentOpd
            (lookupNode_mem_opDepths _ _ _ _ hl))
    · by_cases hcomp : parentOpd < ownOpd
      · right
        refine ⟨parentOpd, hlt, ?_, by simp [extendParentDelete, hpar, hown, hcomp]⟩
        cases hl : lookupNode nodes pth parentOpd with
        | none => rfl
        | some r =>
          obtain ⟨_, hmin⟩ := lowestWorkingAbove_some _ _ _ _ hown
          have := hmin parentOpd (lookupNode_mem_opDepths _ _ _ _ hl) hlt
          omega
      · left
        simp [extendParentDelete, hpar, hown, hcomp]

/-- Helper: one replace step keeps every row at an op-depth above the
destination op-depth. -/
theorem replaceStep_some_preserved (src dst : RelPath) (sOpd : Int)
    (nd : Nodes) (pr : RelPath × NodeRow) (q : RelPath) (e : Int)
    (row0 : NodeRow) (he : relpathDepth dst < e)
    (h : lookupNode nd q e = some row0) :
    lookupNode (replaceStep src dst sOpd nd pr) q e = some row0 := by
  unfold replaceStep
  cases hsk : skipAncestor src pr.1 with
  | none => exact h
  | some suffix =>
    have hcopy : lookupNode
        (copyNodeMove nd pr.1 sOpd (dst ++ suffix) (relpathDepth dst)) q e
        = some row0 := by
      unfold copyNodeMove
      cases hl : lookupNode nd pr.1 sOpd with
      | none => exact h
      | some r =>
        rw [lookupNode_insert_ne]
        · exact h
        · rintro ⟨_, h2⟩
          omega
    show lookupNode
        (if suffix.isEmpty then
          copyNodeMove nd pr.1 sOpd (dst ++ suffix) (relpathDepth dst)
        else
          extendParentDelete
            (copyNodeMove nd pr.1 sOpd (dst ++ suffix) (relpathDepth dst))
            (dst ++ suffix) pr.2.kind (relpathDepth dst)) q e = some row0
    by_cases hemp : suffix.isEmpty = true
    · rw [if_pos hemp]
      exact hcopy
    · rw [if_neg hemp]
      rcases extendParentDelete_cases
          (copyNodeMove nd pr.1 sOpd (dst ++ suffix) (relpathDepth dst))
          (dst ++ suffix) pr.2.kind (relpathDepth dst) with
        hcase | ⟨pd, hpd, hnone, hcase⟩
      · rw [hcase]
        exact hcopy
      · rw [hcase, lookupNode_insert_ne]
        · exact hcopy
        · rintro ⟨h1, h2⟩
          rw [h1, h2] at hcopy
          rw [hcopy] at hnone
          exact absurd hnone (by simp)

/-- Helper: one replace step does not touch paths outside the
destination subtree. -/
theorem replaceStep_nondst (src dst : RelPath) (sOpd : Int) (nd : Nodes)
    (pr : RelPath × NodeRow) (q : RelPath) (e : Int)
    (hq : isAncestor dst q = false) :
    lookupNode (replaceStep src dst sOpd nd pr) q e = lookupNode nd q e := by
  unfold replaceStep
  cases hsk : skipAncestor src pr.1 with
  | none => rfl
  | some suffix =>
    have hqne : ∀ d : Int, ¬ (q = dst ++ suffix ∧ e = d) := by
      rintro d ⟨h1, _⟩
      rw [h1, isAncestor_append] at hq
      exact absurd hq (by simp)
    have hcopy : lookupNode
        (copyNodeMove nd pr.1 sOpd (dst ++ suffix) (relpathDepth dst)) q e
        = lookupNode nd q e := by
      unfold copyNodeMove
      cases hl : lookupNode nd pr.1 sOpd with
      | none => rfl
      | some r => exact lookupNode_insert_ne _ _ _ _ _ _ (hqne _)
    show lookupNode
        (if suffix.isEmpty then
          copyNodeMove nd pr.1 sOpd (dst ++ suffix) (relpathDepth dst)
        else
          extendParentDelete
            (copyNodeMove nd pr.1 sOpd (dst ++ suffix) (relpathDepth dst))
            (dst ++ suffix) pr.2.kind (relpathDepth dst)) q e
      = lookupNode nd q e
    by_cases hemp : suffix.isEmpty = true
    · rw [if_pos hemp]
      exact hcopy
    · rw [if_neg hemp]
      rcases extendParentDelete_cases
          (copyNodeMove nd pr.1 sOpd (dst ++ suffix) (relpathDepth dst))
          (dst ++ suffix) pr.2.kind (relpathDepth dst) with
        hcase | ⟨pd, _, _, hcase⟩
      · rw [hcase]
        exact hcopy
      · rw [hcase, lookupNode_insert_ne _ _ _ _ _ _ (hqne _)]
        exact hcopy

/-- Helper: one replace step for a different source row does not touch
the given mapped destination key. -/
theorem replaceStep_target (src dst : RelPath) (sOpd : Int) (nd : Nodes)
    (pr : RelPath × NodeRow) (sp : RelPath) (hne : pr.1 ≠ src ++ sp) :
    lookupNode (replaceStep src dst sOpd nd pr) (dst ++ sp) (relpathDepth dst)
      = lookupNode nd (dst ++ sp) (relpathDepth dst) := by
  unfold replaceStep
  cases hsk : skipAncestor src pr.1 with
  | none => rfl
  | some suffix =>
    have hsuf : suffix ≠ sp := by
      intro hs
      exact hne (by rw [skipAncestor_eq_append src pr.1 suffix hsk, hs])
    have hcopy : lookupNode
        (copyNodeMove nd pr.1 sOpd (dst ++ suffix) (relpathDepth dst))
        (dst ++ sp) (relpathDepth dst)
        = lookupNode nd (dst ++ sp) (relpathDepth dst) := by
      unfold copyNodeMove
      cases hl : lookupNode nd pr.1 sOpd with
      | none => rfl
      | some r =>
        rw [lookupNode_insert_ne]
        rintro ⟨h1, _⟩
        exact hsuf (List.append_cancel_left h1.symm)
    show lookupNode
        (if suffix.isEmpty then
          copyNodeMove nd pr.1 sOpd (dst ++ suffix) (relpathDepth dst)
        else
          extendParentDelete
            (copyNodeMove nd pr.1 sOpd (dst ++ suffix) (relpathDepth dst))
            (dst ++ suffix) pr.2.kind (relpathDepth dst)) (dst ++ sp)
        (relpathDepth dst)
      = lookupNode nd (dst ++ sp) (relpathDepth dst)
    by_cases hemp : suffix.isEmpty = true
    · rw [if_pos hemp]
      exact hcopy
    · rw [if_neg hemp]
      rcases extendParentDelete_cases
          (copyNodeMove nd pr.1 sOpd (dst ++ suffix) (relpathDepth dst))
          (dst ++ suffix) pr.2.kind (relpathDepth dst) with
        hcase | ⟨pd, hpd, _, hcase⟩
      · rw [hcase]
        exact hcopy
      · rw [hcase, lookupNode_insert_ne]
        · exact hcopy
        · rintro ⟨_, h2⟩
          omega

/-- Helper: the replace step for a source row writes its copy at the
mapped destination key. -/
theorem replaceStep_at (src dst : RelPath) (sOpd : Int) (nd : Nodes)
    (p : RelPath) (row : NodeRow) (sp : RelPath)
    (hsk : skipAncestor src p = some sp)
    (hl : lookupNode nd p sOpd = some row) :
    ∃ mt, lookupNode (replaceStep src dst sOpd nd (p, row)) (dst ++ sp)
        (relpathDepth dst)
      = some { row with movedHere := true, movedTo := mt } := by
  set mtv := (lookupNode nd (dst ++ sp) (relpathDepth dst)).bind (fun r => r.movedTo) with hmtv
  refine ⟨mtv, ?_⟩
  unfold replaceStep
  simp only [hsk]
  have hcopy : lookupNode
      (copyNodeMove nd p sOpd (dst ++ sp) (relpathDepth dst))
      (dst ++ sp) (relpathDepth dst)
      = some { row with movedHere := true, movedTo := mtv } := by
    unfold copyNodeMove
    simp only [hl]
    rw [← hmtv]
    exact lookupNode_insert_self _ _ _ _
  show lookupNode
      (if sp.isEmpty then
        copyNodeMove nd p sOpd (dst ++ sp) (relpathDepth dst)
      else
        extendParentDelete
          (copyNodeMove nd p sOpd (dst ++ sp) (relpathDepth dst))
          (dst ++ sp) row.kind (relpathDepth dst)) (dst ++ sp)
      (relpathDepth dst)
    = some { row with movedHere := true, movedTo := mtv }
  by_cases hemp : sp.isEmpty = true
  · rw [if_pos hemp]
    exact hcopy
  · rw [if_neg hemp]
    rcases extendParentDelete_cases
        (copyNodeMove nd p sOpd (dst ++ sp) (relpathDepth dst))
        (dst ++ sp) row.kind (relpathDepth dst) with
      hcase | ⟨pd, hpd, _, hcase⟩
    · rw [hcase]
      exact hcopy
    · rw [hcase, lookupNode_insert_ne]
      · exact hcopy
      · rintro ⟨_, h2⟩
        omega

/-- Helper: the whole replace fold keeps every row above the
destination op-depth. -/
theorem replaceFold_some_preserved (src dst : RelPath) (sOpd : Int) :
    ∀ (rs : List (RelPath × NodeRow)) (nd : Nodes) (q : RelPath) (e : Int)
      (row0 : NodeRow), relpathDepth dst < e →
    lookupNode nd q e = some row0 →
    lookupNode (rs.foldl (replaceStep src dst sOpd) nd) q e = some row0 := by
  intro rs
  induction rs with
  | nil => intro nd q e row0 _ h; exact h
  | cons pr rest ih =>
    intro nd q e row0 he h
    rw [List.foldl_cons]
    exact ih _ _ _ _ he (replaceStep_some_preserved src dst sOpd nd pr q e row0 he h)

/-- Helper: the whole replace fold does not touch paths outside the
destination subtree. -/
theorem replaceFold_nondst (src dst : RelPath) (sOpd : Int) :
    ∀ (rs : List (RelPath × NodeRow)) (nd : Nodes) (q : RelPath) (e : Int),
    isAncestor dst q = false →
    lookupNode (rs.foldl (replaceStep src dst sOpd) nd) q e
      = lookupNode nd q e := by
  intro rs
  induction rs with
  | nil => intro nd q e _; rfl
  | cons pr rest ih =>
    intro nd q e hq
    rw [List.foldl_cons]
    exact (ih _ _ _ hq).trans (replaceStep_nondst src dst sOpd nd pr q e hq)

/-- Helper: the replace fold over rows of other source paths does not
touch the given mapped destination key. -/
theorem replaceFold_target (src dst : RelPath) (sOpd : Int) (sp : RelPath) :
    ∀ (rs : List (RelPath × NodeRow)) (nd : Nodes),
    (∀ pr ∈ rs, pr.1 ≠ src ++ sp) →
    lookupNode (rs.foldl (replaceStep src dst sOpd) nd) (dst ++ sp)
        (relpathDepth dst)
      = lookupNode nd (dst ++ sp) (relpathDepth dst) := by
  intro rs
  induction rs with
  | nil => intro nd _; rfl
  | cons pr rest ih =>
    intro nd hne
    rw [List.foldl_cons]
    refine (ih _ (fun pr' h => hne pr' (List.mem_cons_of_mem pr h))).trans ?_
    exact replaceStep_target src dst sOpd nd pr sp (hne pr (List.mem_cons_self pr rest))

/-- Helper: the replace fold copies each selected source row to its
mapped destination key. -/
theorem replaceFold_copy (src dst : RelPath) (sOpd : Int) (p : RelPath)
    (row : NodeRow) (sp : RelPath) (hsk : skipAncestor src p = some sp)
    (hdst : isAncestor dst p = false) :
    ∀ (rs : List (RelPath × NodeRow)) (nd : Nodes),
    (rs.map (fun pr => pr.1)).Nodup → (p, row) ∈ rs →
    lookupNode nd p sOpd = some row →
    ∃ mt, lookupNode (rs.foldl (replaceStep src dst sOpd) nd) (dst ++ sp)
        (relpathDepth dst)
      = some { row with movedHere := true, movedTo := mt } := by
  intro rs
  induction rs with
  | nil => intro nd _ hm _; exact absurd hm (List.not_mem_nil _)
  | cons pr rest ih =>
    intro nd hnd hm hl
    rw [List.foldl_cons]
    rw [List.map_cons] at hnd
    rcases List.mem_cons.mp hm with hm | hm
    · cases hm.symm
      obtain ⟨mt, hstep⟩ := replaceStep_at src dst sOpd nd p row sp hsk hl
      refine ⟨mt, ?_⟩
      have hp : p = src ++ sp := skipAncestor_eq_append src p sp hsk
      have hnotin : p ∉ rest.map (fun pr => pr.1) := (List.nodup_cons.mp hnd).1
      have hrest : ∀ pr' ∈ rest, pr'.1 ≠ src ++ sp := by
        intro pr' hmem heq
        apply hnotin
        have hmm : pr'.1 ∈ rest.map (fun pr => pr.1) :=
          List.mem_map_of_mem (fun pr => pr.1) hmem
        rw [heq, ← hp] at hmm
        exact hmm
      rw [replaceFold_target src dst sOpd sp rest _ hrest]
      exact hstep
    · have hnd' : (rest.map (fun pr => pr.1)).Nodup := (List.nodup_cons.mp hnd).2
      have hl' : lookupNode (replaceStep src dst sOpd nd pr) p sOpd = some row := by
        rw [replaceStep_nondst src dst sOpd nd pr p sOpd hdst]
        exact hl
      exact ih _ hnd' hm hl'

/-- Helper: a prefix relation implies the boolean ancestor test. -/
theorem prefix_isAncestor (a p : RelPath) (h : a <+: p) :
    isAncestor a p = true := by
  obtain ⟨t, ht⟩ := h
  rw [← ht]
  exact isAncestor_append a t

/-- Helper: the boolean ancestor test yields a suffix decomposition. -/
theorem isAncestor_some (a p : RelPath) (h : isAncestor a p = true) :
    ∃ t, skipAncestor a p = some t := by
  unfold isAncestor at h
  cases hs : skipAncestor a p with
  | none => rw [hs] at h; exact absurd h (by simp)
  | some t => exact ⟨t, rfl⟩

/-- C1 (amended, scoped to the layer-replacement step): the
`replace_moved_layer` step copies every source-subtree row at the
source op-depth to a destination row at the destination op-depth
under the mapped path equal in kind, checksum, props and repos
relpath; it touches no path outside the destination subtree; and it
removes nothing — every row that existed at an op-depth above the
destination op-depth is still present unchanged after this step,
though new base-deleted shadow rows may be added there.  At whole-run
scope the original claim's "all higher destination layers are left
unchanged" is false both ways, as the counterexample shows: the
walk's shadowed-add path adds new base-deleted rows to such layers,
and the walk's delete path (`delete_move_leaf` retracting the parent
delete) removes pre-existing ones. -/
theorem C1_replace_layer (s : WcState) (src dst : RelPath) (sOpd : Int)
    (hnd : ((selectSubtreeAtDepth s.nodes src sOpd).map (fun pr => pr.1)).Nodup)
    (hsd : isAncestor src dst = false) (hds : isAncestor dst src = false) :
    (∀ (p : RelPath) (row : NodeRow) (sp : RelPath),
      skipAncestor src p = some sp →
      lookupNode s.nodes p sOpd = some row →
      ∃ row', lookupNode (replaceMovedLayer s src dst sOpd).nodes (dst ++ sp)
            (relpathDepth dst) = some row'
        ∧ row'.kind = row.kind ∧ row'.checksum = row.checksum
        ∧ row'.props = row.props ∧ row'.reposRelpath = row.reposRelpath)
    ∧ (∀ (q : RelPath) (e : Int), isAncestor dst q = false →
        lookupNode (replaceMovedLayer s src dst sOpd).nodes q e
          = lookupNode s.nodes q e)
    ∧ (∀ (q : RelPath) (e : Int) (row0 : NodeRow), relpathDepth dst < e →
        lookupNode s.nodes q e = some row0 →
        lookupNode (replaceMovedLayer s src dst sOpd).nodes q e = some row0) := by
  refine ⟨?_, ?_, ?_⟩
  · intro p row sp hsk hl
    have hanc : isAncestor src p = true := by
      unfold isAncestor
      rw [hsk]
      rfl
    have hdstp : isAncestor dst p = false := by
      cases hic : isAncestor dst p with
      | false => rfl
      | true =>
        obtain ⟨u, hu⟩ := isAncestor_some dst p hic
        have hp1 : p = src ++ sp := skipAncestor_eq_append src p sp hsk
        have hp2 : p = dst ++ u := skipAncestor_eq_append dst p u hu
        have hpre1 : src <+: p := ⟨sp, hp1.symm⟩
        have hpre2 : dst <+: p := ⟨u, hp2.symm⟩
        rcases List.prefix_or_prefix_of_prefix hpre1 hpre2 with hh | hh
        · rw [prefix_isAncestor src dst hh] at hsd
          exact absurd hsd (by simp)
        · rw [prefix_isAncestor dst src hh] at hds
          exact absurd hds (by simp)
    have hmem : (p, row) ∈ selectSubtreeAtDepth s.nodes src sOpd := by
      have hl0 := hl
      simp only [lookupNode, Option.map_eq_some'] at hl0
      obtain ⟨entry, hfind, hval⟩ := hl0
      have hmm := List.mem_of_find?_eq_some hfind
      have hpred := List.find?_some hfind
      simp only [decide_eq_true_eq] at hpred
      simp only [selectSubtreeAtDepth, List.mem_filterMap]
      refine ⟨entry, hmm, ?_⟩
      rw [if_pos ⟨hpred.2, by rw [hpred.1]; exact hanc⟩, hpred.1, hval]
    obtain ⟨mt, hres⟩ :=
      replaceFold_copy src dst sOpd p row sp hsk hdstp _ s.nodes hnd hmem hl
    rw [replaceMovedLayer_nodes]
    exact ⟨_, hres, rfl, rfl, rfl, rfl⟩
  · intro q e hq
    rw [replaceMovedLayer_nodes]
    exact replaceFold_nondst src dst sOpd _ s.nodes q e hq
  · intro q e row0 he hl
    rw [replaceMovedLayer_nodes]
    exact replaceFold_some_preserved src dst sOpd _ s.nodes q e row0 he hl

/-- C1 counterexample, refuting "all destination layers at op-depths
higher than the destination op-depth are left unchanged" at run scope
in both directions.  On the move `a` to `b` (destination op-depth 1)
with `b/c` locally deleted at op-depth 2: with an incoming added file
`a/c/g` the resolver run succeeds and afterwards the op-depth-2 layer
holds a row for `b/c/g` that did not exist before; with an incoming
delete of `a/c/g` (and `b/c/g` present on both destination layers)
the run succeeds and the pre-existing op-depth-2 row for `b/c/g` is
gone afterwards. -/
theorem C1_higher_layer_new_row :
    lookupNode cexState.nodes ["b", "c", "g"] 2 = Option.none
    ∧ (match driveTreeConflictEditor wEnv 10 wBaton cexState ["a"] ["b"] 0 with
       | Except.ok s1 => (lookupNode s1.nodes ["b", "c", "g"] 2).isSome
       | Except.error _ => false) = true
    ∧ lookupNode cexDelState.nodes ["b", "c", "g"] 2
        = some (mkRow Status.baseDeleted Kind.file (-1) Option.none Option.none)
    ∧ (match driveTreeConflictEditor wEnv 10 wBaton cexDelState ["a"] ["b"] 0 with
       | Except.ok s1 => (lookupNode s1.nodes ["b", "c", "g"] 2).isNone
       | Except.error _ => false) = true := by
  exact ⟨by decide, by decide, by decide, by decide⟩

/-- C1 witness: the amended theorem applied to the counterexample
state: the added file `a/c/g` is copied to `b/c/g` at op-depth 1 with
equal kind, checksum, props and repos relpath; the source tree and
the pre-existing op-depth-2 row of `b/c` are untouched. -/
theorem C1_replace_layer_witness :
    (∃ row', lookupNode (replaceMovedLayer cexState ["a"] ["b"] 0).nodes
        (["b"] ++ ["c", "g"]) (relpathDepth ["b"]) = some row'
      ∧ row'.kind = Kind.file ∧ row'.checksum = some 77
      ∧ row'.props = Option.none ∧ row'.reposRelpath = some ["a", "c", "g"])
    ∧ lookupNode (replaceMovedLayer cexState ["a"] ["b"] 0).nodes ["a"] 0
        = lookupNode cexState.nodes ["a"] 0
    ∧ lookupNode (replaceMovedLayer cexState ["a"] ["b"] 0).nodes ["b", "c"] 2
        = some (mkRow Status.baseDeleted Kind.dir (-1) Option.none Option.none) := by
  obtain ⟨c1, c2, c3⟩ :=
    C1_replace_layer cexState ["a"] ["b"] 0 (by decide) (by decide) (by decide)
  refine ⟨?_, ?_, ?_⟩
  · obtain ⟨row', h1, h2, h3, h4, h5⟩ :=
      c1 ["a", "c", "g"]
        (mkRow Status.normal Kind.file 5 (some ["a", "c", "g"]) (some 77))
        ["c", "g"] (by decide) (by decide)
    exact ⟨row', h1, h2, h3, h4, h5⟩
  · exact c2 ["a"] 0 (by decide)
  · exact c3 ["b", "c"] 2
      (mkRow Status.baseDeleted Kind.dir (-1) Option.none Option.none)
      (by decide) (by decide)

end Theorems

end UpdateMove
